import Mathlib

/-!
Permutation lowering passes of pnnx (ncnn backend).

Shallow embedding of `tools/pnnx/src/pass_ncnn/torch_transpose.cpp` and
`tools/pnnx/src/pass_ncnn/Tensor_permute.cpp`.

* C++ `int` values are embedded as `Int`.  Every arithmetic step of the two
  passes is a guarded `+ rank`, `- 1` or `+ 1` that cannot leave the 32-bit
  range, so no wrap-around has to be modelled.
* `std::vector<int>` is embedded as `List Int`.
* `std::map<std::vector<int>, int>` (the enumeration tables) is embedded as an
  association list with unique keys.
* `std::map<std::string, Parameter>` (the parameter map of an operator) is
  embedded as a finite function `String → Option Parameter`.
-/

namespace pnnx

/-! ## Data model -/

/-- Modelled from the spec: the closed tagged value stored in a parameter map
(`Parameter` of `ir.h`, which is not part of the two source files).  Float
payloads are carried as bit patterns; neither pass reads or writes them. -/
inductive Parameter where
  | null
  | bool (b : Bool)
  | int (i : Int)
  | float (bits : Nat)
  | str (s : String)
  | ints (ai : List Int)
  | floats (af : List Nat)
  | strs (as : List String)
  deriving DecidableEq

/-- Embedding of `std::map<std::string, Parameter>`. -/
abbrev ParamMap := String → Option Parameter

/-- The empty parameter map. -/
def ParamMap.empty : ParamMap := fun _ => none

/-- Embedding of `params[key] = value`: insert or overwrite. -/
def ParamMap.assign (m : ParamMap) (key : String) (value : Parameter) : ParamMap :=
  fun k => if k = key then some value else m k

/-- Modelled from the spec: the fields of `Operator` (declared in `ir.h`) that
the rewrite functions touch, the type tag and the parameter map. -/
structure Operator where
  type : String
  params : ParamMap

/-- Modelled from the spec: what the rewrite functions read from
`op->inputs[0]`, the declared shape (empty when the rank is unknown) and the
integer stored under `"__batch_index"`. -/
structure Operand where
  shape : List Int
  batch_index : Int

/-- Exit path taken by a rewrite function.  The five failure exits are the
five `fprintf(stderr, ...)` diagnostics followed by `return`. -/
inductive Exit where
  | batch_dimension
  | unsupported_rank (input_rank : Int)
  | rank_mismatch (input_rank : Int) (new_rank : Int)
  | invalid_permutation
  | unsupported_permutation (perm : List Int)
  | noop
  | written
  deriving DecidableEq

/-- Node state after a call together with the exit path taken. -/
structure Result where
  op : Operator
  exit : Exit

/-- The vector `[0, 1, ..., n-1]` built by `for (i = 0; i < n; ++i) perm[i] = i`. -/
def identity_perm (n : Nat) : List Int := (List.range n).map Int.ofNat

/-- Embedding of `std::swap(perm[i], perm[j])` on in-range positions. -/
def swap_at (perm : List Int) (i j : Nat) : List Int :=
  (perm.set i (perm.getD j 0)).set j (perm.getD i 0)

/-! ## Enumeration tables (`torch_transpose.cpp`) -/

/-- Embedding of `std::map<std::vector<int>, int>`. -/
abbrev PermMap := List (List Int × Int)

/-- Embedding of `map.find(key)`: `none` stands for `map.end()`. -/
def PermMap.find : PermMap → List Int → Option Int
  | [], _ => none
  | (k, v) :: rest, key => if k = key then some v else PermMap.find rest key

/-- Embedding of `map[key] = value`: insert or overwrite. -/
def PermMap.assign : PermMap → List Int → Int → PermMap
  | [], key, value => [(key, value)]
  | (k, v) :: rest, key, value =>
    if k = key then (k, value) :: rest else (k, v) :: PermMap.assign rest key value

namespace torch_transpose

/-- The table `permute_map_3d`. -/
def permute_map_3d : PermMap :=
  [ ([0, 1, 2], 0),
    ([0, 2, 1], 1),
    ([1, 0, 2], 2),
    ([1, 2, 0], 3),
    ([2, 0, 1], 4),
    ([2, 1, 0], 5) ]

/-- The table `permute_map_4d`. -/
def permute_map_4d : PermMap :=
  [ ([0, 1, 2, 3], 0),
    ([0, 1, 3, 2], 1),
    ([0, 2, 1, 3], 2),
    ([0, 2, 3, 1], 3),
    ([0, 3, 1, 2], 4),
    ([0, 3, 2, 1], 5),
    ([1, 0, 2, 3], 6),
    ([1, 0, 3, 2], 7),
    ([1, 2, 0, 3], 8),
    ([1, 2, 3, 0], 9),
    ([1, 3, 0, 2], 10),
    ([1, 3, 2, 0], 11),
    ([2, 0, 1, 3], 12),
    ([2, 0, 3, 1], 13),
    ([2, 1, 0, 3], 14),
    ([2, 1, 3, 0], 15),
    ([2, 3, 0, 1], 16),
    ([2, 3, 1, 0], 17),
    ([3, 0, 1, 2], 18),
    ([3, 0, 2, 1], 19),
    ([3, 1, 0, 2], 20),
    ([3, 1, 2, 0], 21),
    ([3, 2, 0, 1], 22),
    ([3, 2, 1, 0], 23) ]

/-- Inner loop of `generate_5d_permute_map`: `for (j = i + 1; j < 5; ++j)`.
The state is the map under construction and `param_value`. -/
def generate_5d_inner (i : Nat) (st : PermMap × Int) : PermMap × Int :=
  (List.range' (i + 1) (5 - (i + 1))).foldl
    (fun st j => (PermMap.assign st.1 (swap_at [0, 1, 2, 3, 4] i j) st.2, st.2 + 1)) st

/-- Embedding of `generate_5d_permute_map`. -/
def generate_5d_permute_map : PermMap :=
  ((List.range 5).foldl (fun st i => generate_5d_inner i st)
    (PermMap.assign [] [0, 1, 2, 3, 4] 0, 1)).1

/-- Embedding of `get_permute_type`. -/
def get_permute_type (perm : List Int) (input_rank : Int) : Int :=
  if input_rank = 1 then
    if perm = [0] then 0 else -1
  else if input_rank = 2 then
    if perm = [0, 1] then 0
    else if perm = [1, 0] then 1
    else -1
  else if input_rank = 3 then
    match permute_map_3d.find perm with
    | some code => code
    | none => -1
  else if input_rank = 4 then
    match permute_map_4d.find perm with
    | some code => code
    | none => -1
  else if input_rank = 5 then
    match generate_5d_permute_map.find perm with
    | some code => code
    | none => -1
  else -1

/-- Lines 57-64: a negative dimension counts from the end, `dim += input_rank`. -/
def resolve_dim (dim input_rank : Int) : Int :=
  if dim < 0 then dim + input_rank else dim

/-- Lines 76-79: `if (dim > batch_index) dim -= 1`. -/
def adjust_dim (dim batch_index : Int) : Int :=
  if dim > batch_index then dim - 1 else dim

/-- Lines 74 and 80: the rank after the batch axis has been taken out. -/
def reduced_rank (input : Operand) : Int :=
  if input.batch_index ≥ 0 ∧ input.batch_index < (input.shape.length : Int) then
    (input.shape.length : Int) - 1
  else input.shape.length

/-- Lines 57-81: the position handed to `std::swap` for a captured axis. -/
def swap_position (input : Operand) (dim : Int) : Int :=
  if input.batch_index ≥ 0 ∧ input.batch_index < (input.shape.length : Int) then
    adjust_dim (resolve_dim dim input.shape.length) input.batch_index
  else resolve_dim dim input.shape.length

/-- Line 97, `std::swap(perm[dim0], perm[dim1])`.  The source indexes the
vector without a bounds check; a position outside the vector is undefined
behaviour and is reported as `none`. -/
def swap_dims (perm : List Int) (dim0 dim1 : Int) : Option (List Int) :=
  if 0 ≤ dim0 ∧ dim0 < perm.length ∧ 0 ≤ dim1 ∧ dim1 < perm.length then
    some (swap_at perm dim0.toNat dim1.toNat)
  else none

/-- Lines 89-121 of `write`: build the candidate vector, look its code up and
update the node.  `op` already carries the default written at line 46. -/
def write_permute (op : Operator) (dim0 dim1 input_rank : Int) : Option Result :=
  match swap_dims (identity_perm input_rank.toNat) dim0 dim1 with
  | none => none
  | some perm =>
    let permute_type := get_permute_type perm input_rank
    if permute_type < 0 then
      some ⟨op, Exit.unsupported_permutation perm⟩
    else if permute_type = 0 then
      some ⟨{ op with type := "Noop" }, Exit.noop⟩
    else
      some ⟨{ op with params := op.params.assign "0" (Parameter.int permute_type) }, Exit.written⟩

/-- Embedding of `torch_transpose::write`.  `input` is `op->inputs[0]`, and
`dim0`, `dim1` are the captured parameters.  The result is `none` exactly when
the source runs into the out-of-bounds swap. -/
def write (op : Operator) (input : Operand) (dim0 dim1 : Int) : Option Result :=
  let op := { op with params := op.params.assign "0" (Parameter.int 0) }
  let batch_index := input.batch_index
  let input_rank : Int := input.shape.length
  let dim0 := resolve_dim dim0 input_rank
  let dim1 := resolve_dim dim1 input_rank
  if batch_index ≥ 0 ∧ (dim0 = batch_index ∨ dim1 = batch_index) then
    some ⟨op, Exit.batch_dimension⟩
  else if batch_index ≥ 0 ∧ batch_index < input_rank then
    if input_rank - 1 > 5 then
      some ⟨op, Exit.unsupported_rank (input_rank - 1)⟩
    else
      write_permute op (adjust_dim dim0 batch_index) (adjust_dim dim1 batch_index) (input_rank - 1)
  else
    if input_rank > 5 then
      some ⟨op, Exit.unsupported_rank input_rank⟩
    else
      write_permute op dim0 dim1 input_rank

end torch_transpose

namespace Tensor_permute

/-- Lines 53-62: the rank after the fallback to `dims.size()` for an empty
shape and after the batch axis has been taken out. -/
def reduced_rank (input : Operand) (dims : List Int) : Int :=
  let input_rank : Int := input.shape.length
  let input_rank : Int := if input_rank = 0 then dims.length else input_rank
  if input.batch_index ≥ 0 ∧ input.batch_index < input_rank then input_rank - 1 else input_rank

/-- Lines 70-79: the loop that builds `new_dims` with `push_back`. -/
def drop_batch (dims : List Int) (batch_index : Int) : List Int :=
  dims.foldl
    (fun new_dims d =>
      if d = batch_index then new_dims
      else new_dims ++ [if d > batch_index then d - 1 else d])
    []

/-- Line 89: `std::sort` on a vector of integers. -/
def sort (v : List Int) : List Int := List.insertionSort (fun a b => a ≤ b) v

/-- The loops at lines 90-97 and 101-108: `true` when `v[i] == i` for every
`i < input_rank`. -/
def all_in_place (v : List Int) (input_rank : Nat) : Bool :=
  (List.range input_rank).all (fun i => v[i]? == some (Int.ofNat i))

/-- Lines 121-125: `params[std::to_string(i + 1)] = new_dims[i]` for every
`i < input_rank`. -/
def write_dims (params : ParamMap) (new_dims : List Int) (input_rank : Nat) : ParamMap :=
  (List.range input_rank).foldl
    (fun params i => params.assign (Nat.repr (i + 1)) (Parameter.int (new_dims.getD i 0)))
    params

/-- Embedding of `Tensor_permute::write`.  `input` is `op->inputs[0]` and
`dims` is the captured parameter. -/
def write (op : Operator) (input : Operand) (dims : List Int) : Result :=
  let batch_index := input.batch_index
  let input_rank := reduced_rank input dims
  if input_rank > 5 then
    ⟨op, Exit.unsupported_rank input_rank⟩
  else
    let new_dims := drop_batch dims batch_index
    if input_rank ≠ new_dims.length then
      ⟨op, Exit.rank_mismatch input_rank new_dims.length⟩
    else
      let sorted_dims := sort new_dims
      if all_in_place sorted_dims input_rank.toNat = false then
        ⟨op, Exit.invalid_permutation⟩
      else if all_in_place new_dims input_rank.toNat = true then
        ⟨{ op with type := "Noop" }, Exit.noop⟩
      else
        ⟨{ op with params :=
            write_dims (op.params.assign "0" (Parameter.int (-1))) new_dims input_rank.toNat },
          Exit.written⟩

end Tensor_permute


/-- The list `P` is a permutation of `{0, ..., R-1}`. -/
def is_permutation (P : List Int) (R : Nat) : Prop := List.Perm P (identity_perm R)

instance (P : List Int) (R : Nat) : Decidable (is_permutation P R) := by
  unfold is_permutation; infer_instance

/-- The list `P` is `[0, ..., R-1]` with one pair of positions `i < j` swapped. -/
def is_single_swap (P : List Int) (R : Nat) : Prop :=
  ∃ j < R, ∃ i < j, P = swap_at (identity_perm R) i j

instance (P : List Int) (R : Nat) : Decidable (is_single_swap P R) := by
  unfold is_single_swap; infer_instance

/-- A node as the rewriter hands it to `write`: the type tag is the pass's
`type_str()` and no parameter has been written yet. -/
def fresh_op : Operator := ⟨"Permute", ParamMap.empty⟩

/-- The transposition of positions `i` and `j`, as a map on indices. -/
def transpose_index (i j k : Nat) : Nat := if k = i then j else if k = j then i else k

/-- Index `k` of a list from which position `b` has been removed, in the
numbering of the original list. -/
def skip_index (b k : Nat) : Nat := if k < b then k else k + 1

/-- Lexicographic order on vectors: `lex_lt P Q` is `true` when `P` comes
strictly before `Q`. -/
def lex_lt : List Int → List Int → Bool
  | [], [] => false
  | [], _ :: _ => true
  | _ :: _, [] => false
  | p :: ps, q :: qs => if p < q then true else if p = q then lex_lt ps qs else false

/-- The lexicographic rank of `P`: the number of permutations of `{0..R-1}`
that come strictly before `P`. -/
def lex_rank (P : List Int) (R : Nat) : Nat :=
  ((List.permutations' (identity_perm R)).filter (fun Q => lex_lt Q P)).length

/-- The number of pairs `(i', j')` with `i' < j' <= 4` that come before `(i, j)`
in lexicographic order. -/
def pairs_before (i j : Nat) : Nat :=
  ((List.range 5).map (fun i' =>
    ((List.range 5).filter (fun j' =>
      decide (i' < j' ∧ (i' < i ∨ (i' = i ∧ j' < j))))).length)).sum

theorem is_permutation_iff_mem (P : List Int) (R : Nat) :
    is_permutation P R ↔ P ∈ List.permutations' (identity_perm R) := by
  unfold is_permutation
  exact List.mem_permutations'.symm


/-! ## The enumeration tables -/

section tables
open torch_transpose

/-- C1: for every rank `R` in `{1,2,3,4}`, `get_permute_type` restricted to the
permutations of `{0..R-1}` is a bijection onto `{0, ..., R!-1}`: every
permutation gets a code in `[0, R!-1]`, two different permutations never share
a code, and every integer of `[0, R!-1]` is the code of some permutation. -/
theorem get_permute_type_bijection (R : Nat) (hR : R = 1 ∨ R = 2 ∨ R = 3 ∨ R = 4) :
    (∀ P, is_permutation P R →
      0 ≤ get_permute_type P R ∧ get_permute_type P R ≤ (Nat.factorial R : Int) - 1) ∧
    (∀ P Q, is_permutation P R → is_permutation Q R →
      get_permute_type P R = get_permute_type Q R → P = Q) ∧
    (∀ c : Int, 0 ≤ c → c ≤ (Nat.factorial R : Int) - 1 →
      ∃ P, is_permutation P R ∧ get_permute_type P R = c) := by
  have key : ∀ R : Nat, R = 1 ∨ R = 2 ∨ R = 3 ∨ R = 4 →
      (∀ P ∈ List.permutations' (identity_perm R),
        0 ≤ get_permute_type P R ∧ get_permute_type P R ≤ (Nat.factorial R : Int) - 1) ∧
      (∀ P ∈ List.permutations' (identity_perm R), ∀ Q ∈ List.permutations' (identity_perm R),
        get_permute_type P R = get_permute_type Q R → P = Q) ∧
      (∀ n < Nat.factorial R, ∃ P ∈ List.permutations' (identity_perm R),
        get_permute_type P R = (n : Int)) := by
    intro R hR
    rcases hR with rfl | rfl | rfl | rfl <;> decide!
  obtain ⟨h1, h2, h3⟩ := key R hR
  refine ⟨fun P hP => h1 P ((is_permutation_iff_mem P R).1 hP),
    fun P Q hP hQ => h2 P ((is_permutation_iff_mem P R).1 hP) Q ((is_permutation_iff_mem Q R).1 hQ),
    fun c hc0 hc => ?_⟩
  obtain ⟨n, rfl⟩ := Int.eq_ofNat_of_zero_le hc0
  have hn : n < Nat.factorial R := by
    have : (n : Int) < (Nat.factorial R : Int) := by omega
    exact_mod_cast this
  obtain ⟨P, hP, hc⟩ := h3 n hn
  exact ⟨P, (is_permutation_iff_mem P R).2 hP, hc⟩

/-- Instance of C1 at rank 3. -/
theorem get_permute_type_bijection_witness :
    (3 = 1 ∨ 3 = 2 ∨ 3 = 3 ∨ 3 = 4) ∧
    ((∀ P, is_permutation P 3 →
      0 ≤ get_permute_type P (3 : Nat) ∧
        get_permute_type P (3 : Nat) ≤ (Nat.factorial 3 : Int) - 1) ∧
    (∀ P Q, is_permutation P 3 → is_permutation Q 3 →
      get_permute_type P (3 : Nat) = get_permute_type Q (3 : Nat) → P = Q) ∧
    (∀ c : Int, 0 ≤ c → c ≤ (Nat.factorial 3 : Int) - 1 →
      ∃ P, is_permutation P 3 ∧ get_permute_type P (3 : Nat) = c)) :=
  ⟨by decide, get_permute_type_bijection 3 (by decide)⟩

/-- C2: at rank 5 a permutation of `{0..4}` gets a code in `0..10` exactly when
it is the identity or the identity with one pair of positions swapped; the
identity gets 0; those vectors get pairwise distinct codes covering `0..10`;
there are 11 of them; and each of the other 109 permutations gets `-1`. -/
theorem get_permute_type_rank5 :
    (∀ P, is_permutation P 5 →
      ((0 ≤ get_permute_type P 5 ∧ get_permute_type P 5 ≤ 10) ↔
        (P = identity_perm 5 ∨ is_single_swap P 5))) ∧
    get_permute_type (identity_perm 5) 5 = 0 ∧
    (∀ P Q, is_permutation P 5 → is_permutation Q 5 →
      (P = identity_perm 5 ∨ is_single_swap P 5) → (Q = identity_perm 5 ∨ is_single_swap Q 5) →
      get_permute_type P 5 = get_permute_type Q 5 → P = Q) ∧
    (∀ c : Int, 0 ≤ c → c ≤ 10 →
      ∃ P, is_permutation P 5 ∧ (P = identity_perm 5 ∨ is_single_swap P 5) ∧
        get_permute_type P 5 = c) ∧
    (∀ P, is_permutation P 5 → ¬ (P = identity_perm 5 ∨ is_single_swap P 5) →
      get_permute_type P 5 = -1) ∧
    ((List.permutations' (identity_perm 5)).filter
      (fun P => decide (P = identity_perm 5 ∨ is_single_swap P 5))).length = 11 ∧
    ((List.permutations' (identity_perm 5)).filter
      (fun P => decide (get_permute_type P 5 = -1))).length = 109 ∧
    (List.permutations' (identity_perm 5)).length = 120 ∧
    (List.permutations' (identity_perm 5)).Nodup := by
  have key1 : ∀ P ∈ List.permutations' (identity_perm 5),
      ((0 ≤ get_permute_type P 5 ∧ get_permute_type P 5 ≤ 10) ↔
        (P = identity_perm 5 ∨ is_single_swap P 5)) := by
    decide!
  have key2 : ∀ P ∈ List.permutations' (identity_perm 5),
      ¬ (P = identity_perm 5 ∨ is_single_swap P 5) → get_permute_type P 5 = -1 := by
    decide!
  have key3 : ∀ n < 11, ∃ P ∈ List.permutations' (identity_perm 5),
      (P = identity_perm 5 ∨ is_single_swap P 5) ∧ get_permute_type P 5 = Int.ofNat n := by
    decide!
  have inj : ∀ P ∈ List.permutations' (identity_perm 5),
      ∀ Q ∈ List.permutations' (identity_perm 5),
      (P = identity_perm 5 ∨ is_single_swap P 5) → (Q = identity_perm 5 ∨ is_single_swap Q 5) →
      get_permute_type P 5 = get_permute_type Q 5 → P = Q := by
    decide!
  refine ⟨fun P hP => key1 P ((is_permutation_iff_mem P 5).1 hP), by decide,
    fun P Q hP hQ => inj P ((is_permutation_iff_mem P 5).1 hP) Q ((is_permutation_iff_mem Q 5).1 hQ),
    fun c hc0 hc => ?_,
    fun P hP => key2 P ((is_permutation_iff_mem P 5).1 hP), by decide!, by decide!,
    by decide!, by decide!⟩
  obtain ⟨n, rfl⟩ := Int.eq_ofNat_of_zero_le hc0
  obtain ⟨P, hP, hs, hc⟩ := key3 n (by omega)
  exact ⟨P, (is_permutation_iff_mem P 5).2 hP, hs, hc⟩

/-- Instance of C2: the 3-cycle `[1,2,0,3,4]` has no code. -/
theorem get_permute_type_rank5_witness :
    is_permutation [1, 2, 0, 3, 4] 5 ∧
    ¬ ([1, 2, 0, 3, 4] = identity_perm 5 ∨ is_single_swap [1, 2, 0, 3, 4] 5) ∧
    get_permute_type [1, 2, 0, 3, 4] 5 = -1 :=
  ⟨by decide, by decide,
    get_permute_type_rank5.2.2.2.2.1 [1, 2, 0, 3, 4] (by decide) (by decide)⟩

/-- C18: for `R` in `{2,3,4}` the code of every permutation of `{0..R-1}` is its
lexicographic rank, the number of permutations that come before it, and the
code is strictly increasing in the lexicographic order. -/
theorem get_permute_type_lex_rank (R : Nat) (hR : R = 2 ∨ R = 3 ∨ R = 4) :
    (∀ P, is_permutation P R → get_permute_type P R = (lex_rank P R : Int)) ∧
    (∀ P Q, is_permutation P R → is_permutation Q R → lex_lt P Q = true →
      get_permute_type P R < get_permute_type Q R) ∧
    (List.permutations' (identity_perm R)).Nodup := by
  have key : ∀ R : Nat, R = 2 ∨ R = 3 ∨ R = 4 →
      (∀ P ∈ List.permutations' (identity_perm R),
        get_permute_type P R = Int.ofNat (lex_rank P R)) ∧
      (∀ P ∈ List.permutations' (identity_perm R), ∀ Q ∈ List.permutations' (identity_perm R),
        lex_lt P Q = true → get_permute_type P R < get_permute_type Q R) ∧
      (List.permutations' (identity_perm R)).Nodup := by
    intro R hR
    rcases hR with rfl | rfl | rfl <;> decide!
  obtain ⟨h1, h2, h3⟩ := key R hR
  exact ⟨fun P hP => h1 P ((is_permutation_iff_mem P R).1 hP),
    fun P Q hP hQ => h2 P ((is_permutation_iff_mem P R).1 hP) Q ((is_permutation_iff_mem Q R).1 hQ),
    h3⟩

/-- Instance of C18 at rank 4. -/
theorem get_permute_type_lex_rank_witness :
    lex_rank [2, 0, 3, 1] 4 = 13 ∧
    ((∀ P, is_permutation P 4 → get_permute_type P (4 : Nat) = (lex_rank P 4 : Int)) ∧
    (∀ P Q, is_permutation P 4 → is_permutation Q 4 → lex_lt P Q = true →
      get_permute_type P (4 : Nat) < get_permute_type Q (4 : Nat)) ∧
    (List.permutations' (identity_perm 4)).Nodup) :=
  ⟨by decide, get_permute_type_lex_rank 4 (by decide)⟩

/-- C19: at rank 5 the identity with positions `i < j <= 4` swapped gets the
code `1 + ` (number of pairs before `(i, j)`), which is
`1 + 4*i - i*(i-1)/2 + (j - i - 1)`; so `(0,1) -> 1`, `(0,4) -> 4`, `(1,2) -> 5`,
`(3,4) -> 10`; and the generated map holds 11 entries whose values are exactly
`0, 1, ..., 10` under 11 different keys, so no assignment overwrote an entry. -/
theorem get_permute_type_swap_index :
    (∀ j < 5, ∀ i < j,
      get_permute_type (swap_at (identity_perm 5) i j) 5 = 1 + (pairs_before i j : Int) ∧
      1 + (pairs_before i j : Int) =
        1 + 4 * (i : Int) - (i : Int) * ((i : Int) - 1) / 2 + ((j : Int) - (i : Int) - 1)) ∧
    get_permute_type (swap_at (identity_perm 5) 0 1) 5 = 1 ∧
    get_permute_type (swap_at (identity_perm 5) 0 4) 5 = 4 ∧
    get_permute_type (swap_at (identity_perm 5) 1 2) 5 = 5 ∧
    get_permute_type (swap_at (identity_perm 5) 3 4) 5 = 10 ∧
    generate_5d_permute_map.length = 11 ∧
    generate_5d_permute_map.map Prod.snd = [0, 1, 2, 3, 4, 5, 6, 7, 8, 9, 10] ∧
    (generate_5d_permute_map.map Prod.fst).Nodup := by
  refine ⟨by decide!, by decide, by decide, by decide, by decide, by decide, by decide,
    by decide⟩

/-- Instance of C19 at the pair `(2, 4)`. -/
theorem get_permute_type_swap_index_witness :
    swap_at (identity_perm 5) 2 4 = [0, 1, 4, 3, 2] ∧
    pairs_before 2 4 = 8 ∧
    get_permute_type (swap_at (identity_perm 5) 2 4) 5 = 1 + (pairs_before 2 4 : Int) ∧
    1 + (pairs_before 2 4 : Int) =
      1 + 4 * ((2 : Nat) : Int) - ((2 : Nat) : Int) * (((2 : Nat) : Int) - 1) / 2 +
        (((4 : Nat) : Int) - ((2 : Nat) : Int) - 1) :=
  ⟨by decide, by decide, get_permute_type_swap_index.1 4 (by decide) 2 (by decide)⟩

end tables

/-! ## `torch_transpose::write` -/

namespace torch_transpose

theorem identity_perm_length (n : Nat) : (identity_perm n).length = n := by
  simp [identity_perm]

theorem get_permute_type_identity :
    ∀ R < 6, 1 ≤ R → get_permute_type (identity_perm R) (Int.ofNat R) = 0 := by
  decide

theorem get_permute_type_swap :
    ∀ R < 6, ∀ i < R, ∀ j < R, i ≠ j →
      1 ≤ get_permute_type (swap_at (identity_perm R) i j) (Int.ofNat R) := by
  decide!

theorem swap_at_self :
    ∀ R < 6, ∀ i < R, swap_at (identity_perm R) i i = identity_perm R := by
  decide

theorem write_permute_nat (op : Operator) (i j n : Nat) (hi : i < n) (hj : j < n) :
    write_permute op i j n =
      if get_permute_type (swap_at (identity_perm n) i j) n < 0 then
        some ⟨op, Exit.unsupported_permutation (swap_at (identity_perm n) i j)⟩
      else if get_permute_type (swap_at (identity_perm n) i j) n = 0 then
        some ⟨{ op with type := "Noop" }, Exit.noop⟩
      else
        some ⟨{ op with params := (op.params.assign "0"
          (Parameter.int (get_permute_type (swap_at (identity_perm n) i j) n))) }, Exit.written⟩ := by
  have h : 0 ≤ (i : Int) ∧ (i : Int) < ((identity_perm (Int.toNat (n : Int))).length : Int) ∧
      0 ≤ (j : Int) ∧ (j : Int) < ((identity_perm (Int.toNat (n : Int))).length : Int) := by
    simp [identity_perm_length]; omega
  unfold write_permute swap_dims
  rw [if_pos h]
  simp

theorem write_of_conflict (op : Operator) (input : Operand) (dim0 dim1 : Int)
    (h : input.batch_index ≥ 0 ∧
      (resolve_dim dim0 input.shape.length = input.batch_index ∨
        resolve_dim dim1 input.shape.length = input.batch_index)) :
    write op input dim0 dim1 =
      some ⟨{ op with params := op.params.assign "0" (Parameter.int 0) }, Exit.batch_dimension⟩ := by
  unfold write
  simp only []
  rw [if_pos h]

theorem write_of_rank (op : Operator) (input : Operand) (dim0 dim1 : Int)
    (h : ¬ (input.batch_index ≥ 0 ∧
      (resolve_dim dim0 input.shape.length = input.batch_index ∨
        resolve_dim dim1 input.shape.length = input.batch_index)))
    (hr : 5 < reduced_rank input) :
    write op input dim0 dim1 =
      some ⟨{ op with params := op.params.assign "0" (Parameter.int 0) },
        Exit.unsupported_rank (reduced_rank input)⟩ := by
  unfold write
  simp only []
  rw [if_neg h]
  unfold reduced_rank at hr ⊢
  split_ifs at hr ⊢ <;> rfl

theorem write_of_permute (op : Operator) (input : Operand) (dim0 dim1 : Int)
    (h : ¬ (input.batch_index ≥ 0 ∧
      (resolve_dim dim0 input.shape.length = input.batch_index ∨
        resolve_dim dim1 input.shape.length = input.batch_index)))
    (hr : reduced_rank input ≤ 5) :
    write op input dim0 dim1 =
      if input.batch_index ≥ 0 ∧ input.batch_index < (input.shape.length : Int) then
        write_permute { op with params := op.params.assign "0" (Parameter.int 0) }
          (adjust_dim (resolve_dim dim0 input.shape.length) input.batch_index)
          (adjust_dim (resolve_dim dim1 input.shape.length) input.batch_index)
          (reduced_rank input)
      else
        write_permute { op with params := op.params.assign "0" (Parameter.int 0) }
          (resolve_dim dim0 input.shape.length) (resolve_dim dim1 input.shape.length)
          (reduced_rank input) := by
  unfold write
  simp only []
  rw [if_neg h]
  unfold reduced_rank at hr ⊢
  split_ifs at hr ⊢ <;> first | rfl | omega

/-- C3 (amended): whenever `torch_transpose::write` fails because a resolved
axis equals a batch index `b >= 0`, or because the rank after batch reduction
exceeds 5, the call returns with the operator's type unchanged and with the
parameter map equal to the map before the call updated by `"0" -> 0`, the
default written at the top of the function. -/
theorem write_failure_keeps_default (op : Operator) (input : Operand) (dim0 dim1 : Int)
    (h : (input.batch_index ≥ 0 ∧
        (resolve_dim dim0 input.shape.length = input.batch_index ∨
          resolve_dim dim1 input.shape.length = input.batch_index)) ∨
      5 < reduced_rank input) :
    ∃ r, write op input dim0 dim1 = some r ∧
      r.op.type = op.type ∧
      r.op.params = op.params.assign "0" (Parameter.int 0) ∧
      (r.exit = Exit.batch_dimension ∨ r.exit = Exit.unsupported_rank (reduced_rank input)) := by
  by_cases hc : input.batch_index ≥ 0 ∧
      (resolve_dim dim0 input.shape.length = input.batch_index ∨
        resolve_dim dim1 input.shape.length = input.batch_index)
  · exact ⟨_, write_of_conflict op input dim0 dim1 hc, rfl, rfl, Or.inl rfl⟩
  · rcases h with h | h
    · exact absurd h hc
    · exact ⟨_, write_of_rank op input dim0 dim1 hc h, rfl, rfl, Or.inr rfl⟩

/-- C3 fails as stated: swapping axes (0,2) with batch axis 0 on a rank-3 input
takes the batch-dimension exit, yet the fresh node, which had no key `"0"`,
now holds `"0" -> 0`. -/
theorem write_failure_changes_params :
    ∃ r, write fresh_op ⟨[2, 3, 4], 0⟩ 0 2 = some r ∧
      r.exit = Exit.batch_dimension ∧
      r.op.type = fresh_op.type ∧
      fresh_op.params "0" = none ∧
      r.op.params "0" = some (Parameter.int 0) ∧
      r.op.params ≠ fresh_op.params := by
  refine ⟨_, write_of_conflict fresh_op ⟨[2, 3, 4], 0⟩ 0 2 (by decide), rfl, rfl, rfl, rfl, ?_⟩
  intro h
  have := congrFun h "0"
  simp [ParamMap.assign, fresh_op, ParamMap.empty] at this

/-- Instance of the amended C3 at scenario 4: axes (0,2), batch axis 0, rank 3. -/
theorem write_failure_keeps_default_witness :
    ∃ r, write fresh_op ⟨[2, 3, 4], 0⟩ 0 2 = some r ∧
      r.op.type = fresh_op.type ∧
      r.op.params = fresh_op.params.assign "0" (Parameter.int 0) ∧
      (r.exit = Exit.batch_dimension ∨
        r.exit = Exit.unsupported_rank (reduced_rank ⟨[2, 3, 4], 0⟩)) :=
  write_failure_keeps_default fresh_op ⟨[2, 3, 4], 0⟩ 0 2 (Or.inl (by decide))

/-- C6: with no batch axis, a declared rank `R` in `1..5` and two different
axes `0 <= dim0, dim1 < R`, `torch_transpose::write` stores under key `"0"` the
value of `get_permute_type` on the identity vector with positions `dim0` and
`dim1` swapped; that value is at least 1 and the type is left as it was. -/
theorem write_swap_code (op : Operator) (input : Operand) (dim0 dim1 : Int) (R : Nat)
    (hR1 : 1 ≤ R) (hR5 : R ≤ 5) (hrank : input.shape.length = R)
    (hb : input.batch_index < 0 ∨ (R : Int) ≤ input.batch_index)
    (h0 : 0 ≤ dim0) (h0R : dim0 < R) (h1 : 0 ≤ dim1) (h1R : dim1 < R) (hne : dim0 ≠ dim1) :
    ∃ r, write op input dim0 dim1 = some r ∧
      r.op.params "0" = some (Parameter.int
        (get_permute_type (swap_at (identity_perm R) dim0.toNat dim1.toNat) R)) ∧
      1 ≤ get_permute_type (swap_at (identity_perm R) dim0.toNat dim1.toNat) R ∧
      r.op.type = op.type ∧
      r.exit = Exit.written := by
  obtain ⟨i, rfl⟩ := Int.eq_ofNat_of_zero_le h0
  obtain ⟨j, rfl⟩ := Int.eq_ofNat_of_zero_le h1
  have hi : i < R := by exact_mod_cast h0R
  have hj : j < R := by exact_mod_cast h1R
  have hij : i ≠ j := fun h => hne (by rw [h])
  have hcode := get_permute_type_swap R (by omega) i hi j hj hij
  have hres0 : resolve_dim (i : Int) (input.shape.length : Int) = i := by
    unfold resolve_dim; rw [if_neg (by omega)]
  have hres1 : resolve_dim (j : Int) (input.shape.length : Int) = j := by
    unfold resolve_dim; rw [if_neg (by omega)]
  have hnb : ¬ (input.batch_index ≥ 0 ∧ input.batch_index < (input.shape.length : Int)) := by
    rw [hrank]; omega
  have hred : reduced_rank input = R := by
    unfold reduced_rank; rw [if_neg hnb, hrank]
  have hc : ¬ (input.batch_index ≥ 0 ∧
      (resolve_dim (i : Int) input.shape.length = input.batch_index ∨
        resolve_dim (j : Int) input.shape.length = input.batch_index)) := by
    rw [hres0, hres1]; omega
  have hw := write_of_permute op input i j hc (by rw [hred]; exact_mod_cast hR5)
  rw [if_neg hnb, hres0, hres1, hred, write_permute_nat _ i j R hi hj] at hw
  have hcode2 : 1 ≤ get_permute_type (swap_at (identity_perm R) i j) (R : Int) := hcode
  rw [if_neg (by omega), if_neg (by omega)] at hw
  refine ⟨_, hw, ?_, ?_, rfl, rfl⟩
  · simp [ParamMap.assign]
  · simpa using hcode2

/-- Swapping a position with itself yields the identity, whose code is 0. -/
theorem write_permute_same (op : Operator) (a n : Nat) (ha : a < n) (hn : n ≤ 5) :
    write_permute op a a n = some ⟨{ op with type := "Noop" }, Exit.noop⟩ := by
  have h0 : get_permute_type (swap_at (identity_perm n) a a) (n : Int) = 0 := by
    rw [swap_at_self n (by omega) a ha]
    exact get_permute_type_identity n (by omega) (by omega)
  rw [write_permute_nat op a a n ha ha, h0]
  simp

/-- C10 (amended): when both resolved axes coincide, lie inside the declared
rank and differ from the batch axis, and the reduced rank is at most 5,
`torch_transpose::write` sets the type to `"Noop"` and the parameter map after
the call is the map before the call updated by `"0" -> 0`. -/
theorem write_identity_noop (op : Operator) (input : Operand) (dim0 dim1 : Int)
    (heq : resolve_dim dim0 input.shape.length = resolve_dim dim1 input.shape.length)
    (hlo : 0 ≤ resolve_dim dim0 input.shape.length)
    (hhi : resolve_dim dim0 input.shape.length < input.shape.length)
    (hb : ¬ (input.batch_index ≥ 0 ∧ resolve_dim dim0 input.shape.length = input.batch_index))
    (hR : reduced_rank input ≤ 5) :
    write op input dim0 dim1 =
      some ⟨{ type := "Noop", params := op.params.assign "0" (Parameter.int 0) }, Exit.noop⟩ := by
  have hc : ¬ (input.batch_index ≥ 0 ∧
      (resolve_dim dim0 input.shape.length = input.batch_index ∨
        resolve_dim dim1 input.shape.length = input.batch_index)) := by
    rw [← heq]; tauto
  rw [write_of_permute op input dim0 dim1 hc hR, ← heq]
  generalize resolve_dim dim0 input.shape.length = d at hlo hhi hb hc
  obtain ⟨k, rfl⟩ := Int.eq_ofNat_of_zero_le hlo
  unfold reduced_rank at hR ⊢
  by_cases hadj : input.batch_index ≥ 0 ∧ input.batch_index < (input.shape.length : Int)
  · rw [if_pos hadj] at hR ⊢
    rw [if_pos hadj]
    have hne : (k : Int) ≠ input.batch_index := fun h => hb ⟨hadj.1, h⟩
    have hrk : ((input.shape.length : Int) - 1) = ((input.shape.length - 1 : Nat) : Int) := by
      omega
    by_cases hgt : (k : Int) > input.batch_index
    · have ha : adjust_dim (k : Int) input.batch_index = ((k - 1 : Nat) : Int) := by
        unfold adjust_dim; rw [if_pos hgt]; omega
      rw [ha, hrk]
      exact write_permute_same _ (k - 1) (input.shape.length - 1) (by omega) (by omega)
    · have ha : adjust_dim (k : Int) input.batch_index = (k : Int) := by
        unfold adjust_dim; rw [if_neg hgt]
      rw [ha, hrk]
      exact write_permute_same _ k (input.shape.length - 1) (by omega) (by omega)
  · rw [if_neg hadj] at hR ⊢
    rw [if_neg hadj]
    exact write_permute_same _ k input.shape.length (by omega) (by omega)

/-- Instance of the amended C10: axes `1` and `-2` name the same axis at rank 3. -/
theorem write_identity_noop_witness :
    write fresh_op ⟨[2, 3, 4], 233⟩ 1 (-2) =
      some ⟨{ type := "Noop", params := fresh_op.params.assign "0" (Parameter.int 0) },
        Exit.noop⟩ :=
  write_identity_noop fresh_op ⟨[2, 3, 4], 233⟩ 1 (-2) (by decide) (by decide) (by decide)
    (by decide) (by decide)

/-- C10 fails as stated: swapping axis 1 with itself at rank 3 marks the fresh
node `"Noop"`, but key `"0"`, absent before the call, holds 0 afterwards. -/
theorem write_identity_writes_default :
    ∃ r, write fresh_op ⟨[2, 3, 4], 233⟩ 1 1 = some r ∧
      r.exit = Exit.noop ∧ r.op.type = "Noop" ∧
      fresh_op.params "0" = none ∧
      r.op.params "0" = some (Parameter.int 0) ∧
      r.op.params ≠ fresh_op.params := by
  refine ⟨⟨{ type := "Noop", params := fresh_op.params.assign "0" (Parameter.int 0) },
    Exit.noop⟩, by rfl, rfl, rfl, rfl, rfl, ?_⟩
  intro h
  have := congrFun h "0"
  simp [ParamMap.assign, fresh_op, ParamMap.empty] at this

/-- Instance of C6 at scenario 3: swap (1,3) at rank 4 builds `[0,3,2,1]`, code 5. -/
theorem write_swap_code_witness :
    swap_at (identity_perm 4) 1 3 = [0, 3, 2, 1] ∧
    get_permute_type [0, 3, 2, 1] 4 = 5 ∧
    ∃ r, write fresh_op ⟨[2, 3, 4, 5], 233⟩ 1 3 = some r ∧
      r.op.params "0" = some (Parameter.int
        (get_permute_type (swap_at (identity_perm 4) (1 : Int).toNat (3 : Int).toNat) (4 : Nat))) ∧
      1 ≤ get_permute_type (swap_at (identity_perm 4) (1 : Int).toNat (3 : Int).toNat) (4 : Nat) ∧
      r.op.type = fresh_op.type ∧
      r.exit = Exit.written :=
  ⟨by decide, by decide,
    write_swap_code fresh_op ⟨[2, 3, 4, 5], 233⟩ 1 3 4 (by decide) (by decide) rfl
      (Or.inr (by decide)) (by decide) (by decide) (by decide) (by decide) (by decide)⟩

theorem swap_at_comm (l : List Int) (i j : Nat) : swap_at l i j = swap_at l j i := by
  unfold swap_at
  by_cases h : i = j
  · subst h; rfl
  · exact List.set_comm _ _ l h

theorem swap_dims_comm (l : List Int) (a b : Int) : swap_dims l a b = swap_dims l b a := by
  unfold swap_dims
  by_cases h : 0 ≤ a ∧ a < l.length ∧ 0 ≤ b ∧ b < l.length
  · rw [if_pos h, if_pos ⟨h.2.2.1, h.2.2.2, h.1, h.2.1⟩, swap_at_comm]
  · rw [if_neg h, if_neg (fun hh => h ⟨hh.2.2.1, hh.2.2.2, hh.1, hh.2.1⟩)]

theorem write_permute_comm (op : Operator) (a b R : Int) :
    write_permute op a b R = write_permute op b a R := by
  unfold write_permute
  rw [swap_dims_comm]

/-- C20: `torch_transpose::write` is symmetric in its two axes: the call with
`(dim0, dim1)` and the call with `(dim1, dim0)` end on the same exit with the
same operator type and the same parameter map. -/
theorem write_symmetric (op : Operator) (input : Operand) (dim0 dim1 : Int) :
    write op input dim0 dim1 = write op input dim1 dim0 := by
  unfold write
  simp only []
  by_cases hc : input.batch_index ≥ 0 ∧
      (resolve_dim dim0 input.shape.length = input.batch_index ∨
        resolve_dim dim1 input.shape.length = input.batch_index)
  · rw [if_pos hc, if_pos ⟨hc.1, hc.2.symm⟩]
  · have hc2 : ¬ (input.batch_index ≥ 0 ∧
        (resolve_dim dim1 input.shape.length = input.batch_index ∨
          resolve_dim dim0 input.shape.length = input.batch_index)) :=
      fun hh => hc ⟨hh.1, hh.2.symm⟩
    rw [if_neg hc, if_neg hc2]
    split_ifs <;> first | rfl | exact write_permute_comm _ _ _ _


theorem resolve_dim_negative (d : Int) (R0 : Nat) (_h0 : 0 ≤ d) (hR : d < R0) :
    resolve_dim (d - R0) R0 = d := by
  unfold resolve_dim
  rw [if_pos (by omega)]
  omega

theorem resolve_dim_nonneg (d R : Int) (h0 : 0 ≤ d) : resolve_dim d R = d := by
  unfold resolve_dim
  rw [if_neg (by omega)]

theorem write_congr_resolve (op : Operator) (input : Operand) (a0 a1 b0 b1 : Int)
    (h0 : resolve_dim a0 input.shape.length = resolve_dim b0 input.shape.length)
    (h1 : resolve_dim a1 input.shape.length = resolve_dim b1 input.shape.length) :
    write op input a0 a1 = write op input b0 b1 := by
  unfold write
  simp only []
  rw [h0, h1]

/-- C12: with a known declared rank `R0 >= 1` and axes `d0, d1` in `[0, R0)`,
spelling either or both axes negatively (`d - R0`) gives exactly the same
result as the call with `(d0, d1)`: the negative spelling is resolved against
the declared rank to `d` before any batch handling. -/
theorem write_negative_spelling (op : Operator) (input : Operand) (d0 d1 : Int) (R0 : Nat)
    (_hR0 : 1 ≤ R0) (hrank : input.shape.length = R0)
    (h0 : 0 ≤ d0) (h0R : d0 < R0) (h1 : 0 ≤ d1) (h1R : d1 < R0) :
    resolve_dim (d0 - R0) input.shape.length = d0 ∧
    resolve_dim (d1 - R0) input.shape.length = d1 ∧
    write op input (d0 - R0) d1 = write op input d0 d1 ∧
    write op input d0 (d1 - R0) = write op input d0 d1 ∧
    write op input (d0 - R0) (d1 - R0) = write op input d0 d1 := by
  have e0 : resolve_dim (d0 - R0) input.shape.length = d0 := by
    rw [hrank]; exact resolve_dim_negative d0 R0 h0 h0R
  have e1 : resolve_dim (d1 - R0) input.shape.length = d1 := by
    rw [hrank]; exact resolve_dim_negative d1 R0 h1 h1R
  have f0 := resolve_dim_nonneg d0 input.shape.length h0
  have f1 := resolve_dim_nonneg d1 input.shape.length h1
  exact ⟨e0, e1,
    write_congr_resolve op input _ _ _ _ (e0.trans f0.symm) rfl,
    write_congr_resolve op input _ _ _ _ rfl (e1.trans f1.symm),
    write_congr_resolve op input _ _ _ _ (e0.trans f0.symm) (e1.trans f1.symm)⟩

/-- Instance of C12: at rank 4 the axes `(-3, -1)` are the axes `(1, 3)`. -/
theorem write_negative_spelling_witness :
    resolve_dim ((1 : Int) - (4 : Nat)) (([2, 3, 4, 5] : List Int).length) = 1 ∧
    resolve_dim ((3 : Int) - (4 : Nat)) (([2, 3, 4, 5] : List Int).length) = 3 ∧
    write fresh_op ⟨[2, 3, 4, 5], 0⟩ ((1 : Int) - (4 : Nat)) 3 =
      write fresh_op ⟨[2, 3, 4, 5], 0⟩ 1 3 ∧
    write fresh_op ⟨[2, 3, 4, 5], 0⟩ 1 ((3 : Int) - (4 : Nat)) =
      write fresh_op ⟨[2, 3, 4, 5], 0⟩ 1 3 ∧
    write fresh_op ⟨[2, 3, 4, 5], 0⟩ ((1 : Int) - (4 : Nat)) ((3 : Int) - (4 : Nat)) =
      write fresh_op ⟨[2, 3, 4, 5], 0⟩ 1 3 :=
  write_negative_spelling fresh_op ⟨[2, 3, 4, 5], 0⟩ 1 3 4 (by decide) rfl (by decide)
    (by decide) (by decide) (by decide)

theorem write_permute_empty (op : Operator) (a b : Int) : write_permute op a b 0 = none := by
  have h : swap_dims (identity_perm (Int.toNat 0)) a b = none := by
    unfold swap_dims
    rw [if_neg]
    intro hh
    have : ((identity_perm (Int.toNat 0)).length : Int) = 0 := rfl
    omega
  unfold write_permute
  rw [h]

/-- C15: with an unknown rank (empty declared shape) a negative axis is left
as it is by the resolution step, the reduced rank is 0 whatever the batch
index, no pair of positions lies inside the empty candidate vector, and the
call never reaches a no-op or a written code: it either reports the batch
dimension or runs into the out-of-bounds swap. -/
theorem write_unknown_rank (op : Operator) (input : Operand) (dim0 dim1 : Int)
    (hshape : input.shape = []) :
    resolve_dim dim0 input.shape.length = dim0 ∧
    resolve_dim dim1 input.shape.length = dim1 ∧
    reduced_rank input = 0 ∧
    (∀ a b : Int, swap_dims (identity_perm (reduced_rank input).toNat) a b = none) ∧
    ((input.batch_index ≥ 0 ∧ (dim0 = input.batch_index ∨ dim1 = input.batch_index)) →
      write op input dim0 dim1 =
        some ⟨{ op with params := op.params.assign "0" (Parameter.int 0) },
          Exit.batch_dimension⟩) ∧
    (¬ (input.batch_index ≥ 0 ∧ (dim0 = input.batch_index ∨ dim1 = input.batch_index)) →
      write op input dim0 dim1 = none) := by
  have hlen : (input.shape.length : Int) = 0 := by rw [hshape]; rfl
  have r0 : resolve_dim dim0 input.shape.length = dim0 := by
    unfold resolve_dim; rw [hlen]; split_ifs <;> omega
  have r1 : resolve_dim dim1 input.shape.length = dim1 := by
    unfold resolve_dim; rw [hlen]; split_ifs <;> omega
  have hnb : ¬ (input.batch_index ≥ 0 ∧ input.batch_index < (input.shape.length : Int)) := by
    rw [hlen]; omega
  have hred : reduced_rank input = 0 := by
    unfold reduced_rank; rw [if_neg hnb, hlen]
  refine ⟨r0, r1, hred, fun a b => ?_, fun hc => ?_, fun hc => ?_⟩
  · rw [hred]
    unfold swap_dims
    rw [if_neg]
    intro hh
    have : ((identity_perm (Int.toNat 0)).length : Int) = 0 := rfl
    omega
  · exact write_of_conflict op input dim0 dim1 (by rw [r0, r1]; exact hc)
  · rw [write_of_permute op input dim0 dim1 (by rw [r0, r1]; exact hc) (by rw [hred]; decide),
      if_neg hnb, hred]
    exact write_permute_empty _ _ _

/-- Instance of C15: axes `(-1, 0)` on a tensor of unknown rank. -/
theorem write_unknown_rank_witness :
    resolve_dim (-1) (([] : List Int).length) = -1 ∧
    resolve_dim 0 (([] : List Int).length) = 0 ∧
    reduced_rank ⟨[], 233⟩ = 0 ∧
    (∀ a b : Int, swap_dims (identity_perm (reduced_rank ⟨[], 233⟩).toNat) a b = none) ∧
    (((233 : Int) ≥ 0 ∧ ((-1 : Int) = 233 ∨ (0 : Int) = 233)) →
      write fresh_op ⟨[], 233⟩ (-1) 0 =
        some ⟨{ fresh_op with params := fresh_op.params.assign "0" (Parameter.int 0) },
          Exit.batch_dimension⟩) ∧
    (¬ ((233 : Int) ≥ 0 ∧ ((-1 : Int) = 233 ∨ (0 : Int) = 233)) →
      write fresh_op ⟨[], 233⟩ (-1) 0 = none) :=
  write_unknown_rank fresh_op ⟨[], 233⟩ (-1) 0 rfl

theorem get_permute_type_swap_nonneg :
    ∀ R < 6, ∀ i < R, ∀ j < R,
      0 ≤ get_permute_type (swap_at (identity_perm R) i j) (Int.ofNat R) := by
  decide!

theorem write_permute_exit (op : Operator) (i j n : Nat) (hi : i < n) (hj : j < n)
    (hn : n ≤ 5) :
    ∃ r, write_permute op i j n = some r ∧ (r.exit = Exit.noop ∨ r.exit = Exit.written) := by
  have hcode := get_permute_type_swap_nonneg n (by omega) i hi j hj
  have hcode2 : 0 ≤ get_permute_type (swap_at (identity_perm n) i j) (n : Int) := hcode
  rw [write_permute_nat op i j n hi hj, if_neg (by omega)]
  by_cases hz : get_permute_type (swap_at (identity_perm n) i j) (n : Int) = 0
  · rw [if_pos hz]; exact ⟨_, rfl, Or.inl rfl⟩
  · rw [if_neg hz]; exact ⟨_, rfl, Or.inr rfl⟩

theorem write_of_positions (op : Operator) (input : Operand) (dim0 dim1 : Int)
    (h : ¬ (input.batch_index ≥ 0 ∧
      (resolve_dim dim0 input.shape.length = input.batch_index ∨
        resolve_dim dim1 input.shape.length = input.batch_index)))
    (hr : reduced_rank input ≤ 5) :
    write op input dim0 dim1 =
      write_permute { op with params := op.params.assign "0" (Parameter.int 0) }
        (swap_position input dim0) (swap_position input dim1) (reduced_rank input) := by
  rw [write_of_permute op input dim0 dim1 h hr]
  unfold swap_position
  split_ifs <;> rfl

theorem swap_positions_in_range (input : Operand) (dim0 dim1 : Int) (R0 : Nat)
    (hrank : input.shape.length = R0)
    (h0 : -(R0 : Int) ≤ dim0) (h0R : dim0 < R0) (h1 : -(R0 : Int) ≤ dim1) (h1R : dim1 < R0)
    (hb0 : input.batch_index ≠ resolve_dim dim0 input.shape.length)
    (hb1 : input.batch_index ≠ resolve_dim dim1 input.shape.length) :
    ∃ i j n : Nat, i < n ∧ j < n ∧ reduced_rank input = n ∧
      swap_position input dim0 = i ∧ swap_position input dim1 = j := by
  have hr0 : 0 ≤ resolve_dim dim0 input.shape.length ∧
      resolve_dim dim0 input.shape.length < R0 := by
    unfold resolve_dim; rw [hrank]; split_ifs <;> omega
  have hr1 : 0 ≤ resolve_dim dim1 input.shape.length ∧
      resolve_dim dim1 input.shape.length < R0 := by
    unfold resolve_dim; rw [hrank]; split_ifs <;> omega
  unfold reduced_rank swap_position adjust_dim
  by_cases hadj : input.batch_index ≥ 0 ∧ input.batch_index < (input.shape.length : Int)
  · simp only [if_pos hadj]
    refine ⟨(if resolve_dim dim0 input.shape.length > input.batch_index then
        resolve_dim dim0 input.shape.length - 1 else resolve_dim dim0 input.shape.length).toNat,
      (if resolve_dim dim1 input.shape.length > input.batch_index then
        resolve_dim dim1 input.shape.length - 1 else resolve_dim dim1 input.shape.length).toNat,
      R0 - 1, ?_, ?_, ?_, ?_, ?_⟩ <;> omega
  · simp only [if_neg hadj]
    exact ⟨(resolve_dim dim0 input.shape.length).toNat,
      (resolve_dim dim1 input.shape.length).toNat, R0, by omega, by omega, by omega, by omega,
      by omega⟩

theorem write_permute_result (op : Operator) (i j n : Nat) (hi : i < n) (hj : j < n)
    (hn : n ≤ 5) :
    write_permute op i j n =
      some (if get_permute_type (swap_at (identity_perm n) i j) n = 0 then
          ⟨{ op with type := "Noop" }, Exit.noop⟩
        else
          ⟨{ op with params := (op.params.assign "0"
            (Parameter.int (get_permute_type (swap_at (identity_perm n) i j) n))) },
            Exit.written⟩) := by
  have hcode : 0 ≤ get_permute_type (swap_at (identity_perm n) i j) (n : Int) :=
    get_permute_type_swap_nonneg n (by omega) i hi j hj
  rw [write_permute_nat op i j n hi hj, if_neg (by omega)]
  split_ifs <;> rfl

theorem swap_dims_nat (n i j : Nat) (hi : i < n) (hj : j < n) :
    swap_dims (identity_perm n) i j = some (swap_at (identity_perm n) i j) := by
  unfold swap_dims
  rw [if_pos (by rw [identity_perm_length]; omega)]
  simp only [Int.toNat_ofNat]

theorem swap_is_permutation :
    ∀ n < 6, ∀ i < n, ∀ j < n, is_permutation (swap_at (identity_perm n) i j) n := by
  decide!

theorem swap_code_zero_iff :
    ∀ n < 6, ∀ i < n, ∀ j < n,
      (get_permute_type (swap_at (identity_perm n) i j) (Int.ofNat n) = 0 ↔
        swap_at (identity_perm n) i j = identity_perm n) := by
  decide!

/-- C16: for a declared rank `R0 >= 1`, axes in `[-R0, R0)` and a batch index
that differs from both resolved axes, with reduced rank `R <= 5`: the call
hands to the swap two positions that lie in `[0, R)`, the swap stays inside the
candidate vector, the code of that vector is not negative, and the result of
the call is the node with the default `"0" -> 0` and type `"Noop"` when the
code is 0, and the node with the code stored under `"0"` and its type kept
otherwise; the unsupported-permutation exit is not taken. -/
theorem write_never_unsupported (op : Operator) (input : Operand) (dim0 dim1 : Int) (R0 : Nat)
    (_hR0 : 1 ≤ R0) (hrank : input.shape.length = R0)
    (h0 : -(R0 : Int) ≤ dim0) (h0R : dim0 < R0) (h1 : -(R0 : Int) ≤ dim1) (h1R : dim1 < R0)
    (hb0 : input.batch_index ≠ resolve_dim dim0 input.shape.length)
    (hb1 : input.batch_index ≠ resolve_dim dim1 input.shape.length)
    (hR : reduced_rank input ≤ 5) :
    write op input dim0 dim1 =
      write_permute { op with params := op.params.assign "0" (Parameter.int 0) }
        (swap_position input dim0) (swap_position input dim1) (reduced_rank input) ∧
    (0 ≤ swap_position input dim0 ∧ swap_position input dim0 < reduced_rank input) ∧
    (0 ≤ swap_position input dim1 ∧ swap_position input dim1 < reduced_rank input) ∧
    swap_dims (identity_perm (reduced_rank input).toNat)
        (swap_position input dim0) (swap_position input dim1) =
      some (swap_at (identity_perm (reduced_rank input).toNat)
        (swap_position input dim0).toNat (swap_position input dim1).toNat) ∧
    0 ≤ get_permute_type
      (swap_at (identity_perm (reduced_rank input).toNat)
        (swap_position input dim0).toNat (swap_position input dim1).toNat)
      (reduced_rank input) ∧
    write op input dim0 dim1 =
      some (if get_permute_type
          (swap_at (identity_perm (reduced_rank input).toNat)
            (swap_position input dim0).toNat (swap_position input dim1).toNat)
          (reduced_rank input) = 0 then
          ⟨{ type := "Noop", params := op.params.assign "0" (Parameter.int 0) }, Exit.noop⟩
        else
          ⟨{ type := op.type,
             params := ((op.params.assign "0" (Parameter.int 0)).assign "0"
              (Parameter.int (get_permute_type
                (swap_at (identity_perm (reduced_rank input).toNat)
                  (swap_position input dim0).toNat (swap_position input dim1).toNat)
                (reduced_rank input)))) },
            Exit.written⟩) ∧
    ∃ r, write op input dim0 dim1 = some r ∧
      (r.exit = Exit.noop ∨ r.exit = Exit.written) ∧
      (r.exit = Exit.noop → r.op.type = "Noop" ∧ r.op.params "0" = some (Parameter.int 0)) ∧
      (r.exit = Exit.written → r.op.type = op.type ∧
        r.op.params "0" = some (Parameter.int (get_permute_type
          (swap_at (identity_perm (reduced_rank input).toNat)
            (swap_position input dim0).toNat (swap_position input dim1).toNat)
          (reduced_rank input))) ∧
        1 ≤ get_permute_type
          (swap_at (identity_perm (reduced_rank input).toNat)
            (swap_position input dim0).toNat (swap_position input dim1).toNat)
          (reduced_rank input)) ∧
      (∀ k, k ≠ "0" → r.op.params k = op.params k) := by
  have hc : ¬ (input.batch_index ≥ 0 ∧
      (resolve_dim dim0 input.shape.length = input.batch_index ∨
        resolve_dim dim1 input.shape.length = input.batch_index)) := by
    rintro ⟨_, h | h⟩
    · exact hb0 h.symm
    · exact hb1 h.symm
  have hw := write_of_positions op input dim0 dim1 hc hR
  obtain ⟨i, j, n, hi, hj, hrn, hp0, hp1⟩ :=
    swap_positions_in_range input dim0 dim1 R0 hrank h0 h0R h1 h1R hb0 hb1
  rw [hrn] at hR
  have hn : n ≤ 5 := by exact_mod_cast hR
  have hcode : 0 ≤ get_permute_type (swap_at (identity_perm n) i j) (n : Int) :=
    get_permute_type_swap_nonneg n (by omega) i hi j hj
  have hres := write_permute_result
    { op with params := op.params.assign "0" (Parameter.int 0) } i j n hi hj hn
  rw [hw, hp0, hp1, hrn]
  simp only [Int.toNat_ofNat]
  refine ⟨trivial, ⟨by omega, by omega⟩, ⟨by omega, by omega⟩, swap_dims_nat n i j hi hj, hcode,
    hres, ?_⟩
  rw [hres]
  by_cases hz : get_permute_type (swap_at (identity_perm n) i j) (n : Int) = 0
  · rw [if_pos hz]
    refine ⟨_, rfl, Or.inl rfl, fun _ => ⟨rfl, by simp [ParamMap.assign]⟩,
      fun h => (by cases h), fun k hk => by simp [ParamMap.assign, hk]⟩
  · rw [if_neg hz]
    refine ⟨_, rfl, Or.inr rfl, fun h => (by cases h),
      fun _ => ⟨rfl, by simp [ParamMap.assign], by omega⟩,
      fun k hk => by simp [ParamMap.assign, hk]⟩

/-- Instance of C16: axes `(-1, 1)` at rank 4 with batch axis 0 become the
positions `(2, 0)` at rank 3, and the call stores code 5. -/
theorem write_never_unsupported_witness :
    swap_position ⟨[2, 3, 4, 5], 0⟩ (-1) = 2 ∧
    swap_position ⟨[2, 3, 4, 5], 0⟩ 1 = 0 ∧
    reduced_rank ⟨[2, 3, 4, 5], 0⟩ = 3 ∧
    get_permute_type (swap_at (identity_perm 3) 2 0) 3 = 5 ∧
    (write fresh_op ⟨[2, 3, 4, 5], 0⟩ (-1) 1 =
      write_permute { fresh_op with params := fresh_op.params.assign "0" (Parameter.int 0) }
        (swap_position ⟨[2, 3, 4, 5], 0⟩ (-1)) (swap_position ⟨[2, 3, 4, 5], 0⟩ 1) (reduced_rank ⟨[2, 3, 4, 5], 0⟩) ∧
    (0 ≤ swap_position ⟨[2, 3, 4, 5], 0⟩ (-1) ∧ swap_position ⟨[2, 3, 4, 5], 0⟩ (-1) < reduced_rank ⟨[2, 3, 4, 5], 0⟩) ∧
    (0 ≤ swap_position ⟨[2, 3, 4, 5], 0⟩ 1 ∧ swap_position ⟨[2, 3, 4, 5], 0⟩ 1 < reduced_rank ⟨[2, 3, 4, 5], 0⟩) ∧
    swap_dims (identity_perm (reduced_rank ⟨[2, 3, 4, 5], 0⟩).toNat)
        (swap_position ⟨[2, 3, 4, 5], 0⟩ (-1)) (swap_position ⟨[2, 3, 4, 5], 0⟩ 1) =
      some (swap_at (identity_perm (reduced_rank ⟨[2, 3, 4, 5], 0⟩).toNat)
        (swap_position ⟨[2, 3, 4, 5], 0⟩ (-1)).toNat (swap_position ⟨[2, 3, 4, 5], 0⟩ 1).toNat) ∧
    0 ≤ get_permute_type
      (swap_at (identity_perm (reduced_rank ⟨[2, 3, 4, 5], 0⟩).toNat)
        (swap_position ⟨[2, 3, 4, 5], 0⟩ (-1)).toNat (swap_position ⟨[2, 3, 4, 5], 0⟩ 1).toNat)
      (reduced_rank ⟨[2, 3, 4, 5], 0⟩) ∧
    write fresh_op ⟨[2, 3, 4, 5], 0⟩ (-1) 1 =
      some (if get_permute_type
          (swap_at (identity_perm (reduced_rank ⟨[2, 3, 4, 5], 0⟩).toNat)
            (swap_position ⟨[2, 3, 4, 5], 0⟩ (-1)).toNat (swap_position ⟨[2, 3, 4, 5], 0⟩ 1).toNat)
          (reduced_rank ⟨[2, 3, 4, 5], 0⟩) = 0 then
          ⟨{ type := "Noop", params := fresh_op.params.assign "0" (Parameter.int 0) }, Exit.noop⟩
        else
          ⟨{ type := fresh_op.type,
             params := ((fresh_op.params.assign "0" (Parameter.int 0)).assign "0"
              (Parameter.int (get_permute_type
                (swap_at (identity_perm (reduced_rank ⟨[2, 3, 4, 5], 0⟩).toNat)
                  (swap_position ⟨[2, 3, 4, 5], 0⟩ (-1)).toNat (swap_position ⟨[2, 3, 4, 5], 0⟩ 1).toNat)
                (reduced_rank ⟨[2, 3, 4, 5], 0⟩)))) },
            Exit.written⟩) ∧
    ∃ r, write fresh_op ⟨[2, 3, 4, 5], 0⟩ (-1) 1 = some r ∧
      (r.exit = Exit.noop ∨ r.exit = Exit.written) ∧
      (r.exit = Exit.noop → r.op.type = "Noop" ∧ r.op.params "0" = some (Parameter.int 0)) ∧
      (r.exit = Exit.written → r.op.type = fresh_op.type ∧
        r.op.params "0" = some (Parameter.int (get_permute_type
          (swap_at (identity_perm (reduced_rank ⟨[2, 3, 4, 5], 0⟩).toNat)
            (swap_position ⟨[2, 3, 4, 5], 0⟩ (-1)).toNat (swap_position ⟨[2, 3, 4, 5], 0⟩ 1).toNat)
          (reduced_rank ⟨[2, 3, 4, 5], 0⟩))) ∧
        1 ≤ get_permute_type
          (swap_at (identity_perm (reduced_rank ⟨[2, 3, 4, 5], 0⟩).toNat)
            (swap_position ⟨[2, 3, 4, 5], 0⟩ (-1)).toNat (swap_position ⟨[2, 3, 4, 5], 0⟩ 1).toNat)
          (reduced_rank ⟨[2, 3, 4, 5], 0⟩)) ∧
      (∀ k, k ≠ "0" → r.op.params k = fresh_op.params k)) :=
  ⟨by decide, by decide, by decide, by decide,
    write_never_unsupported fresh_op ⟨[2, 3, 4, 5], 0⟩ (-1) 1 4 (by decide) rfl (by decide)
      (by decide) (by decide) (by decide) (by decide) (by decide) (by decide)⟩

end torch_transpose

/-! ## `Tensor_permute::write` -/

namespace Tensor_permute

theorem foldl_drop_batch (dims acc : List Int) (b : Int) :
    dims.foldl
      (fun new_dims d =>
        if d = b then new_dims else new_dims ++ [if d > b then d - 1 else d]) acc =
    acc ++ (dims.filter (fun d => decide (d ≠ b))).map (fun d => if d > b then d - 1 else d) := by
  induction dims generalizing acc with
  | nil => simp
  | cons d rest ih =>
    rw [List.foldl_cons, ih]
    by_cases h : d = b
    · simp [h]
    · simp [h]

theorem drop_batch_eq (dims : List Int) (b : Int) :
    drop_batch dims b =
      (dims.filter (fun d => decide (d ≠ b))).map (fun d => if d > b then d - 1 else d) := by
  unfold drop_batch
  rw [foldl_drop_batch]
  simp

theorem identity_perm_getElem? (n i : Nat) :
    (identity_perm n)[i]? = if i < n then some (Int.ofNat i) else none := by
  unfold identity_perm
  rw [List.getElem?_map]
  by_cases h : i < n
  · rw [List.getElem?_range h, if_pos h]; rfl
  · rw [if_neg h, List.getElem?_eq_none (by simp; omega)]; rfl

theorem all_in_place_iff (v : List Int) (n : Nat) (hlen : v.length = n) :
    all_in_place v n = true ↔ v = identity_perm n := by
  unfold all_in_place
  rw [List.all_eq_true]
  constructor
  · intro h
    apply List.ext_getElem?
    intro i
    rw [identity_perm_getElem?]
    by_cases hi : i < n
    · rw [if_pos hi]
      have := h i (List.mem_range.2 hi)
      simpa using this
    · rw [if_neg hi]
      exact List.getElem?_eq_none (by omega)
  · intro h i hi
    rw [h, identity_perm_getElem?, if_pos (List.mem_range.1 hi)]
    simp

theorem identity_perm_sorted (n : Nat) :
    List.Sorted (fun a b : Int => a ≤ b) (identity_perm n) := by
  unfold identity_perm
  have h : List.Sorted (fun a b : Nat => a ≤ b) (List.range n) :=
    (List.sorted_lt_range n).le_of_lt
  exact List.pairwise_map.2 (h.imp (fun hab => Int.ofNat_le.2 hab))

theorem sort_eq_identity_iff (v : List Int) (n : Nat) :
    sort v = identity_perm n ↔ is_permutation v n := by
  unfold sort is_permutation
  constructor
  · intro h
    rw [← h]
    exact (List.perm_insertionSort _ v).symm
  · intro h
    exact List.eq_of_perm_of_sorted ((List.perm_insertionSort _ v).trans h)
      (List.sorted_insertionSort _ v) (identity_perm_sorted n)

theorem sort_length (v : List Int) : (sort v).length = v.length := by
  unfold sort
  exact List.length_insertionSort _ v

theorem valid_iff (v : List Int) (n : Nat) (hlen : v.length = n) :
    all_in_place (sort v) n = true ↔ is_permutation v n := by
  rw [all_in_place_iff (sort v) n (by rw [sort_length, hlen]), sort_eq_identity_iff]

theorem reduced_rank_nonneg (input : Operand) (dims : List Int) :
    0 ≤ reduced_rank input dims := by
  unfold reduced_rank
  simp only []
  split_ifs <;> omega


theorem is_permutation_length {v : List Int} {n : Nat} (h : is_permutation v n) :
    v.length = n := by
  have := List.Perm.length_eq h
  rwa [torch_transpose.identity_perm_length] at this

theorem is_permutation_nodup {v : List Int} {n : Nat} (h : is_permutation v n) : v.Nodup := by
  refine (List.Perm.nodup_iff h).2 ?_
  unfold identity_perm
  exact List.Nodup.map (fun a b hab => Int.ofNat.inj hab) (List.nodup_range n)

theorem is_permutation_mem {v : List Int} {n : Nat} (h : is_permutation v n) :
    ∀ x ∈ v, 0 ≤ x ∧ x < n := by
  intro x hx
  have hx2 : x ∈ identity_perm n := (List.Perm.mem_iff h).1 hx
  unfold identity_perm at hx2
  obtain ⟨i, hi, rfl⟩ := List.mem_map.1 hx2
  have := List.mem_range.1 hi
  constructor
  · exact Int.ofNat_nonneg i
  · exact Int.ofNat_lt.2 this

theorem write_exit_rank (op : Operator) (input : Operand) (dims : List Int)
    (h : 5 < reduced_rank input dims) :
    write op input dims = ⟨op, Exit.unsupported_rank (reduced_rank input dims)⟩ := by
  unfold write
  simp only []
  rw [if_pos h]

theorem write_exit_mismatch (op : Operator) (input : Operand) (dims : List Int)
    (h : reduced_rank input dims ≤ 5)
    (hlen : reduced_rank input dims ≠ ((drop_batch dims input.batch_index).length : Int)) :
    write op input dims =
      ⟨op, Exit.rank_mismatch (reduced_rank input dims)
        (drop_batch dims input.batch_index).length⟩ := by
  unfold write
  simp only []
  rw [if_neg (by omega), if_pos hlen]

theorem length_toNat {input : Operand} {dims : List Int}
    (hlen : reduced_rank input dims = ((drop_batch dims input.batch_index).length : Int)) :
    (drop_batch dims input.batch_index).length = (reduced_rank input dims).toNat := by
  omega

theorem write_exit_invalid (op : Operator) (input : Operand) (dims : List Int)
    (h : reduced_rank input dims ≤ 5)
    (hlen : reduced_rank input dims = ((drop_batch dims input.batch_index).length : Int))
    (hperm : ¬ is_permutation (drop_batch dims input.batch_index)
      (reduced_rank input dims).toNat) :
    write op input dims = ⟨op, Exit.invalid_permutation⟩ := by
  have hv := valid_iff (drop_batch dims input.batch_index) _ (length_toNat hlen)
  have hf : all_in_place (sort (drop_batch dims input.batch_index))
      (reduced_rank input dims).toNat = false := by
    rw [← Bool.not_eq_true, hv]; exact hperm
  unfold write
  simp only []
  rw [if_neg (by omega), if_neg (by simpa using hlen), if_pos hf]

theorem is_permutation_identity (n : Nat) : is_permutation (identity_perm n) n :=
  List.Perm.refl _

theorem write_exit_noop (op : Operator) (input : Operand) (dims : List Int)
    (h : reduced_rank input dims ≤ 5)
    (hid : drop_batch dims input.batch_index = identity_perm (reduced_rank input dims).toNat) :
    write op input dims = ⟨{ op with type := "Noop" }, Exit.noop⟩ := by
  have hlenN : (drop_batch dims input.batch_index).length = (reduced_rank input dims).toNat := by
    rw [hid, torch_transpose.identity_perm_length]
  have hlen : reduced_rank input dims = ((drop_batch dims input.batch_index).length : Int) := by
    have := reduced_rank_nonneg input dims
    omega
  have hv := (valid_iff (drop_batch dims input.batch_index) _ hlenN).2
    (by rw [hid]; exact is_permutation_identity _)
  have hi := (all_in_place_iff (drop_batch dims input.batch_index) _ hlenN).2 hid
  unfold write
  simp only []
  rw [if_neg (by omega), if_neg (by simpa using hlen), if_neg (by simp [hv]), if_pos hi]

theorem write_exit_written (op : Operator) (input : Operand) (dims : List Int)
    (h : reduced_rank input dims ≤ 5)
    (hperm : is_permutation (drop_batch dims input.batch_index)
      (reduced_rank input dims).toNat)
    (hid : drop_batch dims input.batch_index ≠ identity_perm (reduced_rank input dims).toNat) :
    write op input dims =
      ⟨{ op with params := (write_dims (op.params.assign "0" (Parameter.int (-1)))
          (drop_batch dims input.batch_index) (reduced_rank input dims).toNat) },
        Exit.written⟩ := by
  have hlenN := is_permutation_length hperm
  have hlen : reduced_rank input dims = ((drop_batch dims input.batch_index).length : Int) := by
    have := reduced_rank_nonneg input dims
    omega
  have hv := (valid_iff (drop_batch dims input.batch_index) _ hlenN).2 hperm
  have hi : ¬ all_in_place (drop_batch dims input.batch_index)
      (reduced_rank input dims).toNat = true :=
    fun hh => hid ((all_in_place_iff _ _ hlenN).1 hh)
  unfold write
  simp only []
  rw [if_neg (by omega), if_neg (by simpa using hlen), if_neg (by simp [hv]), if_neg hi]

theorem write_dims_succ (p : ParamMap) (v : List Int) (n : Nat) :
    write_dims p v (n + 1) =
      (write_dims p v n).assign (Nat.repr (n + 1)) (Parameter.int (v.getD n 0)) := by
  unfold write_dims
  rw [List.range_succ, List.foldl_append]
  rfl

theorem write_dims_other (p : ParamMap) (v : List Int) (n : Nat) (k : String)
    (hk : ∀ i < n, k ≠ Nat.repr (i + 1)) : write_dims p v n k = p k := by
  induction n with
  | zero => rfl
  | succ n ih =>
    rw [write_dims_succ]
    unfold ParamMap.assign
    rw [if_neg (hk n (by omega))]
    exact ih (fun i hi => hk i (by omega))

theorem repr_succ_ne_zero : ∀ i < 5, "0" ≠ Nat.repr (i + 1) := by decide

theorem repr_succ_injective :
    ∀ i < 5, ∀ j < 5, Nat.repr (i + 1) = Nat.repr (j + 1) → i = j := by decide

theorem write_dims_zero (p : ParamMap) (v : List Int) (n : Nat) (hn : n ≤ 5) :
    write_dims p v n "0" = p "0" :=
  write_dims_other p v n "0" (fun i hi => repr_succ_ne_zero i (by omega))

theorem write_dims_index (p : ParamMap) (v : List Int) (n : Nat) (hn : n ≤ 5) (i : Nat)
    (hi : i < n) : write_dims p v n (Nat.repr (i + 1)) = some (Parameter.int (v.getD i 0)) := by
  induction n with
  | zero => omega
  | succ n ih =>
    rw [write_dims_succ]
    unfold ParamMap.assign
    by_cases hin : i = n
    · subst hin; rw [if_pos rfl]
    · have hne : Nat.repr (i + 1) ≠ Nat.repr (n + 1) := fun hh =>
        hin (repr_succ_injective i (by omega) n (by omega) hh)
      rw [if_neg hne]
      exact ih (by omega) (by omega)

theorem drop_batch_absent (dims : List Int) (b : Int) (h : ∀ d ∈ dims, d < b) :
    drop_batch dims b = dims := by
  rw [drop_batch_eq]
  have hf : dims.filter (fun d => decide (d ≠ b)) = dims :=
    List.filter_eq_self.2 (fun d hd => by have := h d hd; simp; omega)
  rw [hf]
  conv_rhs => rw [← List.map_id dims]
  apply List.map_congr_left
  intro d hd
  have := h d hd
  rw [if_neg (by omega)]
  rfl

theorem code_nonneg : ∀ R : Nat, R = 1 ∨ R = 2 ∨ R = 3 ∨ R = 4 →
    ∀ P ∈ List.permutations' (identity_perm R),
      0 ≤ torch_transpose.get_permute_type P (Int.ofNat R) := by
  intro R hR
  rcases hR with rfl | rfl | rfl | rfl <;> decide

/-- C7: on every failing input of `Tensor_permute::write` (reduced rank above 5,
reduced list of a length other than the reduced rank, or reduced list that is
not a bijection on `{0..R-1}`: a repeated, negative or too large value) the
call takes one of the three diagnostic exits and the operator's type and
parameter map are those from before the call. -/
theorem write_failure_unchanged (op : Operator) (input : Operand) (dims : List Int)
    (h : 5 < reduced_rank input dims ∨
      ((drop_batch dims input.batch_index).length : Int) ≠ reduced_rank input dims ∨
      ¬ is_permutation (drop_batch dims input.batch_index) (reduced_rank input dims).toNat ∨
      ¬ (drop_batch dims input.batch_index).Nodup ∨
      ∃ x ∈ drop_batch dims input.batch_index, x < 0 ∨ reduced_rank input dims ≤ x) :
    (write op input dims).op.type = op.type ∧
    (write op input dims).op.params = op.params ∧
    ((write op input dims).exit = Exit.unsupported_rank (reduced_rank input dims) ∨
      (write op input dims).exit = Exit.rank_mismatch (reduced_rank input dims)
        (drop_batch dims input.batch_index).length ∨
      (write op input dims).exit = Exit.invalid_permutation) := by
  by_cases hr : 5 < reduced_rank input dims
  · rw [write_exit_rank op input dims hr]
    exact ⟨rfl, rfl, Or.inl rfl⟩
  by_cases hlen : reduced_rank input dims = ((drop_batch dims input.batch_index).length : Int)
  swap
  · rw [write_exit_mismatch op input dims (by omega) hlen]
    exact ⟨rfl, rfl, Or.inr (Or.inl rfl)⟩
  have hperm : ¬ is_permutation (drop_batch dims input.batch_index)
      (reduced_rank input dims).toNat := by
    rcases h with h | h | h | h | ⟨x, hx, hx2⟩
    · exact absurd h hr
    · exact absurd hlen.symm h
    · exact h
    · exact fun hp => h (is_permutation_nodup hp)
    · intro hp
      have := is_permutation_mem hp x hx
      have := reduced_rank_nonneg input dims
      omega
  rw [write_exit_invalid op input dims (by omega) hlen hperm]
  exact ⟨rfl, rfl, Or.inr (Or.inr rfl)⟩

/-- Instance of C7: `dims = [0, 0, 1]` at rank 3 repeats a value. -/
theorem write_failure_unchanged_witness :
    (write fresh_op ⟨[2, 3, 4], 233⟩ [0, 0, 1]).op.type = fresh_op.type ∧
    (write fresh_op ⟨[2, 3, 4], 233⟩ [0, 0, 1]).op.params = fresh_op.params ∧
    ((write fresh_op ⟨[2, 3, 4], 233⟩ [0, 0, 1]).exit =
        Exit.unsupported_rank (reduced_rank ⟨[2, 3, 4], 233⟩ [0, 0, 1]) ∨
      (write fresh_op ⟨[2, 3, 4], 233⟩ [0, 0, 1]).exit =
        Exit.rank_mismatch (reduced_rank ⟨[2, 3, 4], 233⟩ [0, 0, 1])
          (drop_batch [0, 0, 1] 233).length ∨
      (write fresh_op ⟨[2, 3, 4], 233⟩ [0, 0, 1]).exit = Exit.invalid_permutation) :=
  write_failure_unchanged fresh_op ⟨[2, 3, 4], 233⟩ [0, 0, 1]
    (Or.inr (Or.inr (Or.inr (Or.inl (by decide)))))

/-- C8: for a batch index `0 <= b < R` and a `dims` of length `R` holding `b`
exactly once, the reduced list has length `R - 1` and is `dims` without that
entry, order kept, every other entry `v` kept when `v < b` and lowered to
`v - 1` when `v > b`; the rank is reduced to `R - 1`. -/
theorem drop_batch_spec (dims : List Int) (b : Int) (R : Nat)
    (hb0 : 0 ≤ b) (hbR : b < R) (hlen : dims.length = R) (hcount : dims.count b = 1) :
    (drop_batch dims b).length = R - 1 ∧
    (∃ pre post, dims = pre ++ b :: post ∧ b ∉ pre ∧ b ∉ post ∧
      drop_batch dims b = (pre ++ post).map (fun v => if v < b then v else v - 1)) ∧
    (∀ input : Operand, input.batch_index = b →
      (input.shape.length = R ∨ input.shape.length = 0) →
      reduced_rank input dims = (R : Int) - 1) := by
  have hmem : b ∈ dims := List.count_pos_iff.1 (by omega)
  obtain ⟨pre, post, hd⟩ := List.append_of_mem hmem
  have hc : pre.count b + post.count b = 0 := by
    have := hcount
    rw [hd, List.count_append, List.count_cons_self] at this
    omega
  have hpre : b ∉ pre := fun hh => by
    have := List.count_pos_iff.2 hh; omega
  have hpost : b ∉ post := fun hh => by
    have := List.count_pos_iff.2 hh; omega
  have hfpre : pre.filter (fun d => decide (d ≠ b)) = pre :=
    List.filter_eq_self.2 (fun d hd => by
      have : d ≠ b := fun hh => hpre (hh ▸ hd)
      simpa using this)
  have hfpost : post.filter (fun d => decide (d ≠ b)) = post :=
    List.filter_eq_self.2 (fun d hd => by
      have : d ≠ b := fun hh => hpost (hh ▸ hd)
      simpa using this)
  have hdrop : drop_batch dims b =
      (pre ++ post).map (fun v => if v < b then v else v - 1) := by
    rw [drop_batch_eq, hd, List.filter_append, List.filter_cons_of_neg (by simp), hfpre, hfpost]
    apply List.map_congr_left
    intro v hv
    have hvb : v ≠ b := by
      rcases List.mem_append.1 hv with hv | hv
      · exact fun hh => hpre (hh ▸ hv)
      · exact fun hh => hpost (hh ▸ hv)
    by_cases hgt : v > b
    · rw [if_pos hgt, if_neg (by omega)]
    · rw [if_neg hgt, if_pos (by omega)]
  refine ⟨?_, ⟨pre, post, hd, hpre, hpost, hdrop⟩, ?_⟩
  · rw [hdrop, List.length_map]
    have : dims.length = (pre ++ post).length + 1 := by
      rw [hd]; simp; omega
    omega
  · intro input hbi hshape
    unfold reduced_rank
    simp only []
    rcases hshape with hs | hs
    · have hne : ¬ ((input.shape.length : Int) = 0) := by omega
      rw [if_neg hne, if_pos (by omega)]
      omega
    · have he : ((input.shape.length : Int) = 0) := by omega
      rw [if_pos he, if_pos (by omega)]
      omega

/-- Instance of C8: `dims = [1, 0, 2, 3]` with batch index 0 reduces to `[0, 1, 2]`. -/
theorem drop_batch_spec_witness :
    drop_batch [1, 0, 2, 3] 0 = [0, 1, 2] ∧
    ((drop_batch [1, 0, 2, 3] 0).length = 4 - 1 ∧
    (∃ pre post, [1, 0, 2, 3] = pre ++ (0 : Int) :: post ∧ (0 : Int) ∉ pre ∧ (0 : Int) ∉ post ∧
      drop_batch [1, 0, 2, 3] 0 = (pre ++ post).map (fun v => if v < 0 then v else v - 1)) ∧
    (∀ input : Operand, input.batch_index = 0 →
      (input.shape.length = 4 ∨ input.shape.length = 0) →
      reduced_rank input [1, 0, 2, 3] = ((4 : Nat) : Int) - 1)) :=
  ⟨by decide, drop_batch_spec [1, 0, 2, 3] 0 4 (by decide) (by decide) rfl (by decide)⟩


/-- C9: when the reduced list is the identity vector of the reduced rank
`R <= 5`, `Tensor_permute::write` sets the type to `"Noop"` and leaves the
parameter map as it was; conversely the call takes the no-op exit, or turns a
type other than `"Noop"` into `"Noop"`, only when the reduced list is that
identity vector. -/
theorem write_noop_iff (op : Operator) (input : Operand) (dims : List Int) :
    (reduced_rank input dims ≤ 5 →
      drop_batch dims input.batch_index = identity_perm (reduced_rank input dims).toNat →
      (write op input dims).op.type = "Noop" ∧
      (write op input dims).op.params = op.params ∧
      (write op input dims).exit = Exit.noop) ∧
    ((write op input dims).exit = Exit.noop →
      reduced_rank input dims ≤ 5 ∧
      drop_batch dims input.batch_index = identity_perm (reduced_rank input dims).toNat) ∧
    (op.type ≠ "Noop" → (write op input dims).op.type = "Noop" →
      reduced_rank input dims ≤ 5 ∧
      drop_batch dims input.batch_index = identity_perm (reduced_rank input dims).toNat) := by
  refine ⟨fun hR hid => ?_, ?_⟩
  · rw [write_exit_noop op input dims hR hid]
    exact ⟨rfl, rfl, rfl⟩
  by_cases hr : 5 < reduced_rank input dims
  · rw [write_exit_rank op input dims hr]
    exact ⟨fun h => (by cases h), fun h1 h2 => absurd h2 h1⟩
  by_cases hlen : reduced_rank input dims = ((drop_batch dims input.batch_index).length : Int)
  swap
  · rw [write_exit_mismatch op input dims (by omega) hlen]
    exact ⟨fun h => (by cases h), fun h1 h2 => absurd h2 h1⟩
  by_cases hperm : is_permutation (drop_batch dims input.batch_index)
      (reduced_rank input dims).toNat
  swap
  · rw [write_exit_invalid op input dims (by omega) hlen hperm]
    exact ⟨fun h => (by cases h), fun h1 h2 => absurd h2 h1⟩
  by_cases hid : drop_batch dims input.batch_index =
      identity_perm (reduced_rank input dims).toNat
  · exact ⟨fun _ => ⟨by omega, hid⟩, fun _ _ => ⟨by omega, hid⟩⟩
  · rw [write_exit_written op input dims (by omega) hperm hid]
    exact ⟨fun h => (by cases h), fun h1 h2 => absurd h2 h1⟩

/-- Instance of C9 at scenario 2: `dims = [1,0,2,3]`, batch axis 0, rank 4. -/
theorem write_noop_iff_witness :
    drop_batch [1, 0, 2, 3] 0 = [0, 1, 2] ∧
    reduced_rank ⟨[2, 3, 4, 5], 0⟩ [1, 0, 2, 3] = 3 ∧
    (write fresh_op ⟨[2, 3, 4, 5], 0⟩ [1, 0, 2, 3]).op.type = "Noop" ∧
    (write fresh_op ⟨[2, 3, 4, 5], 0⟩ [1, 0, 2, 3]).op.params = fresh_op.params ∧
    (write fresh_op ⟨[2, 3, 4, 5], 0⟩ [1, 0, 2, 3]).exit = Exit.noop :=
  ⟨by decide, by decide,
    (write_noop_iff fresh_op ⟨[2, 3, 4, 5], 0⟩ [1, 0, 2, 3]).1 (by decide) (by decide)⟩

/-- C5 (amended): whenever the reduced list is a valid non-identity permutation
of `{0..R-1}` with `R <= 4`, `Tensor_permute::write` takes the writing exit and
the value stored under key `"0"` is the sentinel `-1`, which is not the
enumeration code of the reduced list. -/
theorem write_stores_sentinel (op : Operator) (input : Operand) (dims : List Int)
    (hR : reduced_rank input dims ≤ 4)
    (hperm : is_permutation (drop_batch dims input.batch_index)
      (reduced_rank input dims).toNat)
    (hid : drop_batch dims input.batch_index ≠ identity_perm (reduced_rank input dims).toNat) :
    (write op input dims).exit = Exit.written ∧
    (write op input dims).op.params "0" = some (Parameter.int (-1)) ∧
    (write op input dims).op.params "0" ≠
      some (Parameter.int (torch_transpose.get_permute_type
        (drop_batch dims input.batch_index) (reduced_rank input dims))) := by
  have h0 := reduced_rank_nonneg input dims
  have hsent : (write op input dims).op.params "0" = some (Parameter.int (-1)) := by
    rw [write_exit_written op input dims (by omega) hperm hid]
    show write_dims _ _ _ "0" = _
    rw [write_dims_zero _ _ _ (by omega)]
    simp [ParamMap.assign]
  refine ⟨by rw [write_exit_written op input dims (by omega) hperm hid], hsent, ?_⟩
  rw [hsent]
  intro hh
  have hcode : torch_transpose.get_permute_type (drop_batch dims input.batch_index)
      (reduced_rank input dims) = -1 := by
    injection hh with hh
    injection hh with hh
    exact hh.symm
  obtain ⟨n, hn⟩ := Int.eq_ofNat_of_zero_le h0
  rw [hn] at hperm hid hcode hR
  simp only [Int.toNat_ofNat] at hperm hid
  have hn4 : n ≤ 4 := by exact_mod_cast hR
  have hn0 : n ≠ 0 := by
    rintro rfl
    have := is_permutation_length hperm
    exact hid (List.length_eq_zero.1 this)
  have := code_nonneg n (by omega) _ ((is_permutation_iff_mem _ n).1 hperm)
  have h2 : torch_transpose.get_permute_type (drop_batch dims input.batch_index) (Int.ofNat n)
      = -1 := hcode
  omega

/-- Instance of the amended C5 at scenario 1: `dims = [0,2,1]`, rank 3. -/
theorem write_stores_sentinel_witness :
    (write fresh_op ⟨[2, 3, 4], 233⟩ [0, 2, 1]).exit = Exit.written ∧
    (write fresh_op ⟨[2, 3, 4], 233⟩ [0, 2, 1]).op.params "0" = some (Parameter.int (-1)) ∧
    (write fresh_op ⟨[2, 3, 4], 233⟩ [0, 2, 1]).op.params "0" ≠
      some (Parameter.int (torch_transpose.get_permute_type
        (drop_batch [0, 2, 1] 233) (reduced_rank ⟨[2, 3, 4], 233⟩ [0, 2, 1]))) :=
  write_stores_sentinel fresh_op ⟨[2, 3, 4], 233⟩ [0, 2, 1] (by decide) (by decide) (by decide)

/-- C5 fails as stated: for `dims = [0,2,1]` on a rank-3 input with no batch
axis the reduced list is `[0,2,1]`, whose enumeration code is 1, but the value
stored under key `"0"` is `-1`. -/
theorem write_does_not_store_code :
    reduced_rank ⟨[2, 3, 4], 233⟩ [0, 2, 1] = 3 ∧
    drop_batch [0, 2, 1] 233 = [0, 2, 1] ∧
    is_permutation [0, 2, 1] 3 ∧
    [0, 2, 1] ≠ identity_perm 3 ∧
    torch_transpose.get_permute_type [0, 2, 1] 3 = 1 ∧
    (write fresh_op ⟨[2, 3, 4], 233⟩ [0, 2, 1]).op.params "0" = some (Parameter.int (-1)) ∧
    (write fresh_op ⟨[2, 3, 4], 233⟩ [0, 2, 1]).op.params "0" ≠ some (Parameter.int 1) := by
  decide

/-- C4 (amended): on a rank-5 input with no batch axis (batch index 5 or more)
whose `dims` is a non-identity permutation of `{0..4}`, `Tensor_permute::write`
does not fail: it takes the writing exit, leaves the type as it was, stores
`-1` under key `"0"` and `dims[i]` under the decimal key of `i + 1`, and keeps
every other key. -/
theorem write_rank5_explicit (op : Operator) (input : Operand) (dims : List Int)
    (hrank : input.shape.length = 5) (hb : 5 ≤ input.batch_index)
    (hperm : is_permutation dims 5) (hid : dims ≠ identity_perm 5) :
    (write op input dims).exit = Exit.written ∧
    (write op input dims).op.type = op.type ∧
    (write op input dims).op.params "0" = some (Parameter.int (-1)) ∧
    (∀ i < 5, (write op input dims).op.params (Nat.repr (i + 1)) =
      some (Parameter.int (dims.getD i 0))) ∧
    (∀ k, k ≠ "0" → (∀ i < 5, k ≠ Nat.repr (i + 1)) →
      (write op input dims).op.params k = op.params k) := by
  have hred : reduced_rank input dims = 5 := by
    have h5 : ¬ (((5 : Nat) : Int) = 0) := by decide
    unfold reduced_rank
    simp only [hrank]
    rw [if_neg h5, if_neg (by omega)]
    rfl
  have hdrop : drop_batch dims input.batch_index = dims :=
    drop_batch_absent dims _ (fun d hd => by
      have := (is_permutation_mem hperm d hd).2
      omega)
  have hw := write_exit_written op input dims (by omega)
    (by rw [hdrop, hred]; exact hperm) (by rw [hdrop, hred]; exact hid)
  have h5 : Int.toNat 5 = 5 := rfl
  rw [hdrop, hred, h5] at hw
  rw [hw]
  refine ⟨rfl, rfl, ?_, fun i hi => ?_, fun k hk0 hk => ?_⟩
  · show write_dims _ _ _ "0" = _
    rw [write_dims_zero _ _ _ (by decide)]
    simp [ParamMap.assign]
  · exact write_dims_index _ _ _ (by decide) i hi
  · show write_dims _ _ _ k = _
    rw [write_dims_other _ _ _ k hk]
    simp [ParamMap.assign, hk0]

/-- Instance of the amended C4 at scenario 5: the 3-cycle `[1,2,0,3,4]`. -/
theorem write_rank5_explicit_witness :
    ¬ is_single_swap [1, 2, 0, 3, 4] 5 ∧
    Nat.repr (2 + 1) = "3" ∧
    ((write fresh_op ⟨[2, 3, 4, 5, 6], 233⟩ [1, 2, 0, 3, 4]).exit = Exit.written ∧
    (write fresh_op ⟨[2, 3, 4, 5, 6], 233⟩ [1, 2, 0, 3, 4]).op.type = fresh_op.type ∧
    (write fresh_op ⟨[2, 3, 4, 5, 6], 233⟩ [1, 2, 0, 3, 4]).op.params "0" =
      some (Parameter.int (-1)) ∧
    (∀ i < 5, (write fresh_op ⟨[2, 3, 4, 5, 6], 233⟩ [1, 2, 0, 3, 4]).op.params (Nat.repr (i + 1)) =
      some (Parameter.int (([1, 2, 0, 3, 4] : List Int).getD i 0))) ∧
    (∀ k, k ≠ "0" → (∀ i < 5, k ≠ Nat.repr (i + 1)) →
      (write fresh_op ⟨[2, 3, 4, 5, 6], 233⟩ [1, 2, 0, 3, 4]).op.params k = fresh_op.params k)) :=
  ⟨by decide, by decide,
    write_rank5_explicit fresh_op ⟨[2, 3, 4, 5, 6], 233⟩ [1, 2, 0, 3, 4] rfl (by decide)
      (by decide) (by decide)⟩

/-- C4 fails as stated: for the 3-cycle `dims = [1,2,0,3,4]` on a rank-5 input
with no batch axis the call takes the writing exit and the parameter map of the
fresh node changes: key `"0"`, absent before, holds `-1` afterwards. -/
theorem write_three_cycle_is_written :
    is_permutation [1, 2, 0, 3, 4] 5 ∧
    [1, 2, 0, 3, 4] ≠ identity_perm 5 ∧
    ¬ is_single_swap [1, 2, 0, 3, 4] 5 ∧
    (write fresh_op ⟨[2, 3, 4, 5, 6], 233⟩ [1, 2, 0, 3, 4]).exit = Exit.written ∧
    fresh_op.params "0" = none ∧
    (write fresh_op ⟨[2, 3, 4, 5, 6], 233⟩ [1, 2, 0, 3, 4]).op.params "0" =
      some (Parameter.int (-1)) ∧
    (write fresh_op ⟨[2, 3, 4, 5, 6], 233⟩ [1, 2, 0, 3, 4]).op.params "1" =
      some (Parameter.int 1) ∧
    (write fresh_op ⟨[2, 3, 4, 5, 6], 233⟩ [1, 2, 0, 3, 4]).op.params ≠ fresh_op.params := by
  refine ⟨by decide, by decide, by decide, by decide, by decide, by decide, by decide, ?_⟩
  intro h
  have := congrFun h "0"
  revert this
  decide

theorem identity_perm_getD (n i : Nat) (hi : i < n) : (identity_perm n).getD i 0 = Int.ofNat i := by
  rw [List.getD_eq_getElem?_getD, identity_perm_getElem?, if_pos hi]
  rfl

theorem swap_at_identity (n i j : Nat) (hi : i < n) (hj : j < n) :
    swap_at (identity_perm n) i j =
      (List.range n).map (fun k => Int.ofNat (transpose_index i j k)) := by
  unfold swap_at
  rw [identity_perm_getD n i hi, identity_perm_getD n j hj]
  apply List.ext_getElem?
  intro k
  rw [List.getElem?_set, List.getElem?_set, List.getElem?_map, identity_perm_getElem?]
  simp only [List.length_set, torch_transpose.identity_perm_length]
  unfold transpose_index
  by_cases hk : k < n
  · rw [List.getElem?_range hk]
    by_cases hjk : j = k
    · subst hjk
      by_cases hik : i = j
      · subst hik; simp [hj]
      · have : ¬ j = i := fun h => hik h.symm
        simp [hj, this]
    · have hkj : ¬ k = j := fun h => hjk h.symm
      by_cases hik : i = k
      · subst hik; simp [hjk, hi]
      · have hki : ¬ k = i := fun h => hik h.symm
        simp [hjk, hik, hk, hki, hkj]
  · have h1 : ¬ j = k := by omega
    have h2 : ¬ i = k := by omega
    rw [List.getElem?_eq_none (by simp; omega)]
    simp [h1, h2, hk]

theorem filter_range_ne (n b : Nat) (hb : b < n) :
    (List.range n).filter (fun k => decide (k ≠ b)) =
      (List.range (n - 1)).map (skip_index b) := by
  induction n with
  | zero => omega
  | succ n ih =>
    rw [List.range_succ, List.filter_append]
    by_cases hbn : b = n
    · subst hbn
      have h1 : (List.range b).filter (fun k => decide (k ≠ b)) = List.range b :=
        List.filter_eq_self.2 (fun k hk => by
          have := List.mem_range.1 hk
          simp; omega)
      have h2 : (List.range b).map (skip_index b) = List.range b := by
        conv_rhs => rw [← List.map_id (List.range b)]
        apply List.map_congr_left
        intro k hk
        have := List.mem_range.1 hk
        unfold skip_index
        rw [if_pos this]; rfl
      rw [h1]
      simp [h2]
    · have hb2 : b < n := by omega
      rw [ih hb2]
      have hn : n + 1 - 1 = (n - 1) + 1 := by omega
      rw [hn, List.range_succ, List.map_append]
      have hs : skip_index b (n - 1) = n := by
        unfold skip_index; rw [if_neg (by omega)]; omega
      have hne : n ≠ b := fun h => hbn h.symm
      simp [hs, hne]

theorem drop_batch_map_range (f : Nat → Nat) (n b : Nat) (hb : b < n)
    (hf : ∀ k < n, f k = b ↔ k = b) :
    drop_batch ((List.range n).map (fun k => Int.ofNat (f k))) (Int.ofNat b) =
      (List.range (n - 1)).map
        (fun k => if Int.ofNat (f (skip_index b k)) > Int.ofNat b
          then Int.ofNat (f (skip_index b k)) - 1 else Int.ofNat (f (skip_index b k))) := by
  rw [drop_batch_eq, List.filter_map]
  have hfil : (List.range n).filter
      ((fun d : Int => decide (d ≠ Int.ofNat b)) ∘ fun k => Int.ofNat (f k)) =
      (List.range n).filter (fun k => decide (k ≠ b)) := by
    apply List.filter_congr
    intro k hk
    have hkn := List.mem_range.1 hk
    have := hf k hkn
    simp only [Function.comp]
    by_cases hkb : k = b
    · have h1 : f k = b := this.2 hkb
      have e1 : decide (Int.ofNat (f k) ≠ Int.ofNat b) = false := by simp [h1]
      have e2 : decide (k ≠ b) = false := by simp [hkb]
      rw [e1, e2]
    · have h1 : f k ≠ b := fun h => hkb (this.1 h)
      simp [hkb, h1]
  rw [hfil, filter_range_ne n b hb, List.map_map, List.map_map]
  rfl


theorem drop_batch_perm (dims l : List Int) (b : Int) (h : List.Perm dims l) :
    List.Perm (drop_batch dims b) (drop_batch l b) := by
  rw [drop_batch_eq, drop_batch_eq]
  exact (h.filter _).map _

theorem drop_batch_identity (n b : Nat) (hb : b < n) :
    drop_batch (identity_perm n) (Int.ofNat b) = identity_perm (n - 1) := by
  have h := drop_batch_map_range (fun k => k) n b hb (fun _ _ => Iff.rfl)
  unfold identity_perm
  rw [h]
  apply List.map_congr_left
  intro k _
  unfold skip_index
  simp only [Int.ofNat_eq_coe]
  split_ifs <;> omega

/-- C14: for a declared rank `R0` in `1..6`, a batch index `0 <= b < R0` and a
`dims` that is a permutation of `{0..R0-1}`, the reduced list is a permutation
of `{0..R0-2}` of length `R0 - 1`, the reduced rank is `R0 - 1`, and the call
takes neither the rank-mismatch nor the invalid-permutation exit: when the
reduced list is the identity it returns the node with type `"Noop"` and its
parameter map untouched, otherwise it returns the node with its type kept,
`-1` under `"0"` and the reduced list under the keys `"1"`, `"2"`, .... -/
theorem write_valid_after_reduction (op : Operator) (input : Operand) (dims : List Int)
    (R0 : Nat) (hR1 : 1 ≤ R0) (hR6 : R0 ≤ 6) (hrank : input.shape.length = R0)
    (hb0 : 0 ≤ input.batch_index) (hbR : input.batch_index < R0)
    (hperm : is_permutation dims R0) :
    is_permutation (drop_batch dims input.batch_index) (R0 - 1) ∧
    (drop_batch dims input.batch_index).length = R0 - 1 ∧
    reduced_rank input dims = (R0 : Int) - 1 ∧
    ((write op input dims).exit = Exit.noop ∨ (write op input dims).exit = Exit.written) ∧
    write op input dims =
      (if drop_batch dims input.batch_index = identity_perm (R0 - 1) then
        ⟨{ op with type := "Noop" }, Exit.noop⟩
      else
        ⟨{ op with params := (write_dims (op.params.assign "0" (Parameter.int (-1)))
            (drop_batch dims input.batch_index) (R0 - 1)) }, Exit.written⟩) ∧
    (drop_batch dims input.batch_index = identity_perm (R0 - 1) →
      (write op input dims).op.type = "Noop" ∧
      (write op input dims).op.params = op.params) ∧
    (drop_batch dims input.batch_index ≠ identity_perm (R0 - 1) →
      (write op input dims).op.type = op.type ∧
      (write op input dims).op.params "0" = some (Parameter.int (-1)) ∧
      (∀ i < R0 - 1, (write op input dims).op.params (Nat.repr (i + 1)) =
        some (Parameter.int ((drop_batch dims input.batch_index).getD i 0))) ∧
      (∀ k, k ≠ "0" → (∀ i < R0 - 1, k ≠ Nat.repr (i + 1)) →
        (write op input dims).op.params k = op.params k)) := by
  obtain ⟨b, hbeq⟩ := Int.eq_ofNat_of_zero_le hb0
  have hbn : b < R0 := by omega
  have hp : is_permutation (drop_batch dims input.batch_index) (R0 - 1) := by
    unfold is_permutation
    rw [← drop_batch_identity R0 b hbn, hbeq]
    exact drop_batch_perm dims _ _ hperm
  have hred : reduced_rank input dims = (R0 : Int) - 1 := by
    have hne : ¬ ((R0 : Int) = 0) := by omega
    unfold reduced_rank
    simp only [hrank]
    rw [if_neg hne, if_pos ⟨hb0, hbR⟩]
  have hnat : (reduced_rank input dims).toNat = R0 - 1 := by omega
  have heq : write op input dims =
      (if drop_batch dims input.batch_index = identity_perm (R0 - 1) then
        ⟨{ op with type := "Noop" }, Exit.noop⟩
      else
        ⟨{ op with params := (write_dims (op.params.assign "0" (Parameter.int (-1)))
            (drop_batch dims input.batch_index) (R0 - 1)) }, Exit.written⟩) := by
    by_cases hid : drop_batch dims input.batch_index = identity_perm (R0 - 1)
    · rw [if_pos hid, write_exit_noop op input dims (by omega) (by rw [hnat]; exact hid)]
    · rw [if_neg hid, write_exit_written op input dims (by omega) (by rw [hnat]; exact hp)
        (by rw [hnat]; exact hid), hnat]
  refine ⟨hp, is_permutation_length hp, hred, ?_, heq, fun hid => ?_, fun hid => ?_⟩
  · rw [heq]; split_ifs
    · exact Or.inl rfl
    · exact Or.inr rfl
  · rw [heq, if_pos hid]
    exact ⟨rfl, rfl⟩
  · rw [heq, if_neg hid]
    refine ⟨rfl, ?_, fun i hi => ?_, fun k hk0 hk => ?_⟩
    · show write_dims _ _ _ "0" = _
      rw [write_dims_zero _ _ _ (by omega)]
      simp [ParamMap.assign]
    · exact write_dims_index _ _ _ (by omega) i hi
    · show write_dims _ _ _ k = _
      rw [write_dims_other _ _ _ k hk]
      simp [ParamMap.assign, hk0]

/-- Instance of C14: `dims = [2,0,1,3]` at rank 4 with batch axis 1 reduces to
`[1,0,2]`, and the call writes `"0" -> -1`, `"1" -> 1`. -/
theorem write_valid_after_reduction_witness :
    drop_batch [2, 0, 1, 3] 1 = [1, 0, 2] ∧
    (write fresh_op ⟨[2, 3, 4, 5], 1⟩ [2, 0, 1, 3]).op.type = "Permute" ∧
    (write fresh_op ⟨[2, 3, 4, 5], 1⟩ [2, 0, 1, 3]).op.params "0" = some (Parameter.int (-1)) ∧
    (write fresh_op ⟨[2, 3, 4, 5], 1⟩ [2, 0, 1, 3]).op.params "1" = some (Parameter.int 1) ∧
    (is_permutation (drop_batch [2, 0, 1, 3] (1 : Int)) (4 - 1) ∧
    (drop_batch [2, 0, 1, 3] (1 : Int)).length = 4 - 1 ∧
    reduced_rank ⟨[2, 3, 4, 5], 1⟩ [2, 0, 1, 3] = ((4 : Nat) : Int) - 1 ∧
    ((write fresh_op ⟨[2, 3, 4, 5], 1⟩ [2, 0, 1, 3]).exit = Exit.noop ∨ (write fresh_op ⟨[2, 3, 4, 5], 1⟩ [2, 0, 1, 3]).exit = Exit.written) ∧
    write fresh_op ⟨[2, 3, 4, 5], 1⟩ [2, 0, 1, 3] =
      (if drop_batch [2, 0, 1, 3] (1 : Int) = identity_perm (4 - 1) then
        ⟨{ fresh_op with type := "Noop" }, Exit.noop⟩
      else
        ⟨{ fresh_op with params := (write_dims (fresh_op.params.assign "0" (Parameter.int (-1)))
            (drop_batch [2, 0, 1, 3] (1 : Int)) (4 - 1)) }, Exit.written⟩) ∧
    (drop_batch [2, 0, 1, 3] (1 : Int) = identity_perm (4 - 1) →
      (write fresh_op ⟨[2, 3, 4, 5], 1⟩ [2, 0, 1, 3]).op.type = "Noop" ∧
      (write fresh_op ⟨[2, 3, 4, 5], 1⟩ [2, 0, 1, 3]).op.params = fresh_op.params) ∧
    (drop_batch [2, 0, 1, 3] (1 : Int) ≠ identity_perm (4 - 1) →
      (write fresh_op ⟨[2, 3, 4, 5], 1⟩ [2, 0, 1, 3]).op.type = fresh_op.type ∧
      (write fresh_op ⟨[2, 3, 4, 5], 1⟩ [2, 0, 1, 3]).op.params "0" = some (Parameter.int (-1)) ∧
      (∀ i < 4 - 1, (write fresh_op ⟨[2, 3, 4, 5], 1⟩ [2, 0, 1, 3]).op.params (Nat.repr (i + 1)) =
        some (Parameter.int ((drop_batch [2, 0, 1, 3] (1 : Int)).getD i 0))) ∧
      (∀ k, k ≠ "0" → (∀ i < 4 - 1, k ≠ Nat.repr (i + 1)) →
        (write fresh_op ⟨[2, 3, 4, 5], 1⟩ [2, 0, 1, 3]).op.params k = fresh_op.params k))) :=
  ⟨by decide, by decide, by decide, by decide,
    write_valid_after_reduction fresh_op ⟨[2, 3, 4, 5], 1⟩ [2, 0, 1, 3] 4 (by decide)
      (by decide) rfl (by decide) (by decide) (by decide)⟩

/-- C11: on success (the reduced list `P` is a valid non-identity permutation
of `{0..R-1}`, `R <= 5`) the call takes the writing exit, leaves the type as it
was, sets key `"0"` to `-1` and the decimal key of `i + 1` to `P[i]` for every
`i < R`, and keeps the value of every other key. -/
theorem write_success_frame (op : Operator) (input : Operand) (dims : List Int)
    (hR : reduced_rank input dims ≤ 5)
    (hperm : is_permutation (drop_batch dims input.batch_index)
      (reduced_rank input dims).toNat)
    (hid : drop_batch dims input.batch_index ≠ identity_perm (reduced_rank input dims).toNat) :
    (write op input dims).exit = Exit.written ∧
    (write op input dims).op.type = op.type ∧
    (write op input dims).op.params "0" = some (Parameter.int (-1)) ∧
    (∀ i : Nat, (i : Int) < reduced_rank input dims →
      ∃ v, (drop_batch dims input.batch_index)[i]? = some v ∧
        (write op input dims).op.params (Nat.repr (i + 1)) = some (Parameter.int v)) ∧
    (∀ k, k ≠ "0" →
      (∀ i : Nat, (i : Int) < reduced_rank input dims → k ≠ Nat.repr (i + 1)) →
      (write op input dims).op.params k = op.params k) := by
  have h0 := reduced_rank_nonneg input dims
  have hlen := is_permutation_length hperm
  rw [write_exit_written op input dims hR hperm hid]
  refine ⟨rfl, rfl, ?_, fun i hi => ?_, fun k hk0 hk => ?_⟩
  · show write_dims _ _ _ "0" = _
    rw [write_dims_zero _ _ _ (by omega)]
    simp [ParamMap.assign]
  · have hin : i < (reduced_rank input dims).toNat := by omega
    have hil : i < (drop_batch dims input.batch_index).length := by omega
    refine ⟨(drop_batch dims input.batch_index).getD i 0, ?_, ?_⟩
    · rw [List.getD_eq_getElem _ _ hil, List.getElem?_eq_getElem hil]
    · exact write_dims_index _ _ _ (by omega) i hin
  · show write_dims _ _ _ k = _
    rw [write_dims_other _ _ _ k (fun i hi => hk i (by omega))]
    simp [ParamMap.assign, hk0]

/-- Instance of C11: `dims = [0,2,1]` at rank 3 writes `"0" -> -1`, `"1" -> 0`,
`"2" -> 2`, `"3" -> 1`. -/
theorem write_success_frame_witness :
    Nat.repr (0 + 1) = "1" ∧ Nat.repr (1 + 1) = "2" ∧ Nat.repr (2 + 1) = "3" ∧
    drop_batch [0, 2, 1] 233 = [0, 2, 1] ∧
    ((write fresh_op ⟨[2, 3, 4], 233⟩ [0, 2, 1]).exit = Exit.written ∧
    (write fresh_op ⟨[2, 3, 4], 233⟩ [0, 2, 1]).op.type = fresh_op.type ∧
    (write fresh_op ⟨[2, 3, 4], 233⟩ [0, 2, 1]).op.params "0" = some (Parameter.int (-1)) ∧
    (∀ i : Nat, (i : Int) < reduced_rank ⟨[2, 3, 4], 233⟩ [0, 2, 1] →
      ∃ v, (drop_batch [0, 2, 1] (233 : Int))[i]? = some v ∧
        (write fresh_op ⟨[2, 3, 4], 233⟩ [0, 2, 1]).op.params (Nat.repr (i + 1)) =
          some (Parameter.int v)) ∧
    (∀ k, k ≠ "0" →
      (∀ i : Nat, (i : Int) < reduced_rank ⟨[2, 3, 4], 233⟩ [0, 2, 1] → k ≠ Nat.repr (i + 1)) →
      (write fresh_op ⟨[2, 3, 4], 233⟩ [0, 2, 1]).op.params k = fresh_op.params k)) :=
  ⟨by decide, by decide, by decide, by decide,
    write_success_frame fresh_op ⟨[2, 3, 4], 233⟩ [0, 2, 1] (by decide) (by decide) (by decide)⟩

/-- C13 at the failing input: with batch index `-1` on a rank-3 input the rank
stays 3, but the loop lowers every entry of `dims = [0,2,1]`, so the reduced
list is `[-1,1,0]` and the call rejects the permutation; with batch index 233
the same `dims` is left as it is and the call writes. -/
theorem drop_batch_negative_index :
    reduced_rank ⟨[2, 3, 4], -1⟩ [0, 2, 1] = 3 ∧
    drop_batch [0, 2, 1] (-1) = [-1, 1, 0] ∧
    drop_batch [0, 2, 1] (-1) ≠ [0, 2, 1] ∧
    (write fresh_op ⟨[2, 3, 4], -1⟩ [0, 2, 1]).exit = Exit.invalid_permutation ∧
    drop_batch [0, 2, 1] 233 = [0, 2, 1] ∧
    (write fresh_op ⟨[2, 3, 4], 233⟩ [0, 2, 1]).exit = Exit.written := by
  decide

end Tensor_permute

/-! ## Agreement of the two passes -/

section agreement

theorem swap_at_identity_lt (n i j : Nat) (hi : i < n) (hj : j < n) :
    ∀ d ∈ swap_at (identity_perm n) i j, d < (n : Int) := by
  rw [Tensor_permute.swap_at_identity n i j hi hj]
  intro d hd
  obtain ⟨k, hk, rfl⟩ := List.mem_map.1 hd
  have hkn := List.mem_range.1 hk
  unfold transpose_index
  simp only [Int.ofNat_eq_coe]
  split_ifs <;> omega

theorem drop_batch_swap (n i j b : Nat) (hi : i < n) (hj : j < n) (hb : b < n)
    (hbi : b ≠ i) (hbj : b ≠ j) :
    Tensor_permute.drop_batch (swap_at (identity_perm n) i j) (Int.ofNat b) =
      swap_at (identity_perm (n - 1)) (if i > b then i - 1 else i) (if j > b then j - 1 else j) := by
  have hi2 : (if i > b then i - 1 else i) < n - 1 := by split_ifs <;> omega
  have hj2 : (if j > b then j - 1 else j) < n - 1 := by split_ifs <;> omega
  rw [Tensor_permute.swap_at_identity n i j hi hj,
    Tensor_permute.swap_at_identity (n - 1) _ _ hi2 hj2,
    Tensor_permute.drop_batch_map_range (transpose_index i j) n b hb (fun k _ => by
      unfold transpose_index
      split_ifs <;> omega)]
  apply List.map_congr_left
  intro k hk
  have hkn := List.mem_range.1 hk
  unfold transpose_index skip_index
  simp only [Int.ofNat_eq_coe]
  split_ifs <;> omega

/-- The reduced list of the swapped identity is the vector obtained by
swapping the adjusted positions, and both reduced ranks coincide. -/
theorem candidate_eq_drop_batch (input : Operand) (d0 d1 : Int) (R0 : Nat)
    (_hR0 : 1 ≤ R0) (hrank : input.shape.length = R0)
    (h0 : 0 ≤ d0) (h0R : d0 < R0) (h1 : 0 ≤ d1) (h1R : d1 < R0)
    (hb : (R0 : Int) ≤ input.batch_index ∨
      (0 ≤ input.batch_index ∧ input.batch_index < R0 ∧
        input.batch_index ≠ d0 ∧ input.batch_index ≠ d1)) :
    torch_transpose.swap_dims (identity_perm (torch_transpose.reduced_rank input).toNat)
        (torch_transpose.swap_position input d0) (torch_transpose.swap_position input d1) =
      some (Tensor_permute.drop_batch (swap_at (identity_perm R0) d0.toNat d1.toNat)
        input.batch_index) ∧
    Tensor_permute.reduced_rank input (swap_at (identity_perm R0) d0.toNat d1.toNat) =
      torch_transpose.reduced_rank input := by
  obtain ⟨i, rfl⟩ := Int.eq_ofNat_of_zero_le h0
  obtain ⟨j, rfl⟩ := Int.eq_ofNat_of_zero_le h1
  have hi : i < R0 := by omega
  have hj : j < R0 := by omega
  have hne : ¬ ((R0 : Int) = 0) := by omega
  have hranks : Tensor_permute.reduced_rank input (swap_at (identity_perm R0) i j) =
      torch_transpose.reduced_rank input := by
    unfold Tensor_permute.reduced_rank torch_transpose.reduced_rank
    simp only [hrank]
    rw [if_neg hne]
  refine ⟨?_, by simpa using hranks⟩
  have hr0 : torch_transpose.resolve_dim (i : Int) (R0 : Int) = i :=
    torch_transpose.resolve_dim_nonneg _ _ (by omega)
  have hr1 : torch_transpose.resolve_dim (j : Int) (R0 : Int) = j :=
    torch_transpose.resolve_dim_nonneg _ _ (by omega)
  simp only [Int.toNat_ofNat]
  unfold torch_transpose.swap_position torch_transpose.reduced_rank
  rw [hrank, hr0, hr1]
  rcases hb with hb | ⟨hb0, hbR, hbi, hbj⟩
  · have hnadj : ¬ (input.batch_index ≥ 0 ∧ input.batch_index < (R0 : Int)) := by omega
    simp only [if_neg hnadj, Int.toNat_ofNat]
    rw [Tensor_permute.drop_batch_absent _ _ (fun d hd => by
      have := swap_at_identity_lt R0 i j hi hj d hd
      omega)]
    unfold torch_transpose.swap_dims
    rw [if_pos (by rw [torch_transpose.identity_perm_length]; omega)]
    simp only [Int.toNat_ofNat]
  · obtain ⟨b, hbeq⟩ := Int.eq_ofNat_of_zero_le hb0
    rw [hbeq] at hbR hbi hbj ⊢
    have hbn : b < R0 := by omega
    have hadj : ((b : Int) ≥ 0 ∧ (b : Int) < (R0 : Int)) := by omega
    simp only [if_pos hadj]
    have hn1 : ((R0 : Int) - 1).toNat = R0 - 1 := by omega
    have hds := drop_batch_swap R0 i j b hi hj hbn (by omega) (by omega)
    simp only [Int.ofNat_eq_coe] at hds
    rw [hn1, hds]
    have ha0 : torch_transpose.adjust_dim (i : Int) (b : Int) =
        ((if i > b then i - 1 else i : Nat) : Int) := by
      unfold torch_transpose.adjust_dim
      split_ifs <;> omega
    have ha1 : torch_transpose.adjust_dim (j : Int) (b : Int) =
        ((if j > b then j - 1 else j : Nat) : Int) := by
      unfold torch_transpose.adjust_dim
      split_ifs <;> omega
    rw [ha0, ha1]
    unfold torch_transpose.swap_dims
    rw [if_pos (by
      rw [torch_transpose.identity_perm_length]
      refine ⟨by omega, ?_, by omega, ?_⟩ <;> split_ifs <;> omega)]
    simp only [Int.toNat_ofNat]

/-- C17: for a rank `R0 >= 1`, axes `d0, d1` in `[0, R0)` and a batch index
that is absent (`>= R0`) or lies in `[0, R0)` away from both axes, the two
passes normalize to the same vector `V` and the same reduced rank `R`: the
candidate vector that `torch_transpose::write` swaps into being is the reduced
list that `Tensor_permute::write` computes from the identity on `R0` with
positions `d0`, `d1` swapped.  Above rank 5 both calls take the
unsupported-rank exit with that `R`; up to rank 5 `torch_transpose::write`
returns the code of `V`, `Tensor_permute::write` returns `V` itself under the
keys `"1"`, `"2"`, ..., and both mark the node `"Noop"` in the same cases. -/
theorem passes_agree (op : Operator) (input : Operand) (d0 d1 : Int) (R0 : Nat)
    (_hR0 : 1 ≤ R0) (hrank : input.shape.length = R0)
    (h0 : 0 ≤ d0) (h0R : d0 < R0) (h1 : 0 ≤ d1) (h1R : d1 < R0)
    (hb : (R0 : Int) ≤ input.batch_index ∨
      (0 ≤ input.batch_index ∧ input.batch_index < R0 ∧
        input.batch_index ≠ d0 ∧ input.batch_index ≠ d1)) :
    torch_transpose.swap_dims (identity_perm (torch_transpose.reduced_rank input).toNat)
        (torch_transpose.swap_position input d0) (torch_transpose.swap_position input d1) =
      some (Tensor_permute.drop_batch (swap_at (identity_perm R0) d0.toNat d1.toNat)
        input.batch_index) ∧
    Tensor_permute.reduced_rank input (swap_at (identity_perm R0) d0.toNat d1.toNat) =
      torch_transpose.reduced_rank input ∧
    (5 < torch_transpose.reduced_rank input →
      torch_transpose.write op input d0 d1 =
        some ⟨{ op with params := op.params.assign "0" (Parameter.int 0) },
          Exit.unsupported_rank (torch_transpose.reduced_rank input)⟩ ∧
      Tensor_permute.write op input (swap_at (identity_perm R0) d0.toNat d1.toNat) =
        ⟨op, Exit.unsupported_rank (torch_transpose.reduced_rank input)⟩) ∧
    (torch_transpose.reduced_rank input ≤ 5 →
      torch_transpose.write op input d0 d1 =
        torch_transpose.write_permute
          { op with params := op.params.assign "0" (Parameter.int 0) }
          (torch_transpose.swap_position input d0) (torch_transpose.swap_position input d1)
          (torch_transpose.reduced_rank input) ∧
      torch_transpose.write op input d0 d1 =
        some (if torch_transpose.get_permute_type
            (Tensor_permute.drop_batch (swap_at (identity_perm R0) d0.toNat d1.toNat)
              input.batch_index) (torch_transpose.reduced_rank input) = 0 then
            ⟨{ type := "Noop", params := op.params.assign "0" (Parameter.int 0) }, Exit.noop⟩
          else
            ⟨{ type := op.type,
               params := ((op.params.assign "0" (Parameter.int 0)).assign "0"
                (Parameter.int (torch_transpose.get_permute_type
                  (Tensor_permute.drop_batch (swap_at (identity_perm R0) d0.toNat d1.toNat)
                    input.batch_index) (torch_transpose.reduced_rank input)))) },
              Exit.written⟩) ∧
      Tensor_permute.write op input (swap_at (identity_perm R0) d0.toNat d1.toNat) =
        (if Tensor_permute.drop_batch (swap_at (identity_perm R0) d0.toNat d1.toNat)
            input.batch_index = identity_perm (torch_transpose.reduced_rank input).toNat then
          ⟨{ op with type := "Noop" }, Exit.noop⟩
        else
          ⟨{ op with params := (Tensor_permute.write_dims
              (op.params.assign "0" (Parameter.int (-1)))
              (Tensor_permute.drop_batch (swap_at (identity_perm R0) d0.toNat d1.toNat)
                input.batch_index) (torch_transpose.reduced_rank input).toNat) },
            Exit.written⟩) ∧
      (torch_transpose.get_permute_type
          (Tensor_permute.drop_batch (swap_at (identity_perm R0) d0.toNat d1.toNat)
            input.batch_index) (torch_transpose.reduced_rank input) = 0 ↔
        Tensor_permute.drop_batch (swap_at (identity_perm R0) d0.toNat d1.toNat)
          input.batch_index = identity_perm (torch_transpose.reduced_rank input).toNat)) := by
  obtain ⟨hvec, hranks⟩ := candidate_eq_drop_batch input d0 d1 R0 _hR0 hrank h0 h0R h1 h1R hb
  have hr0 : torch_transpose.resolve_dim d0 input.shape.length = d0 :=
    torch_transpose.resolve_dim_nonneg _ _ h0
  have hr1 : torch_transpose.resolve_dim d1 input.shape.length = d1 :=
    torch_transpose.resolve_dim_nonneg _ _ h1
  have hb0 : input.batch_index ≠ torch_transpose.resolve_dim d0 input.shape.length := by
    rw [hr0]; omega
  have hb1 : input.batch_index ≠ torch_transpose.resolve_dim d1 input.shape.length := by
    rw [hr1]; omega
  have hc : ¬ (input.batch_index ≥ 0 ∧
      (torch_transpose.resolve_dim d0 input.shape.length = input.batch_index ∨
        torch_transpose.resolve_dim d1 input.shape.length = input.batch_index)) := by
    rintro ⟨_, h | h⟩
    · exact hb0 h.symm
    · exact hb1 h.symm
  refine ⟨hvec, hranks, fun h5 => ?_, fun h5 => ?_⟩
  · refine ⟨torch_transpose.write_of_rank op input d0 d1 hc h5, ?_⟩
    rw [Tensor_permute.write_exit_rank op input _ (by rw [hranks]; exact h5), hranks]
  · have hw := torch_transpose.write_of_positions op input d0 d1 hc h5
    obtain ⟨i, j, n, hi, hj, hrn, hp0, hp1⟩ :=
      torch_transpose.swap_positions_in_range input d0 d1 R0 hrank (by omega) h0R (by omega)
        h1R hb0 hb1
    have hn : n ≤ 5 := by rw [hrn] at h5; exact_mod_cast h5
    have hV : Tensor_permute.drop_batch (swap_at (identity_perm R0) d0.toNat d1.toNat)
        input.batch_index = swap_at (identity_perm n) i j := by
      have := hvec
      rw [hrn, hp0, hp1] at this
      simp only [Int.toNat_ofNat] at this
      rw [torch_transpose.swap_dims_nat n i j hi hj] at this
      exact (Option.some.inj this).symm
    have hres := torch_transpose.write_permute_result
      { op with params := op.params.assign "0" (Parameter.int 0) } i j n hi hj hn
    have hiff := torch_transpose.swap_code_zero_iff n (by omega) i hi j hj
    have hperm := torch_transpose.swap_is_permutation n (by omega) i hi j hj
    refine ⟨hw, ?_, ?_, ?_⟩
    · rw [hw, hp0, hp1, hrn, hV]
      exact hres
    · rw [hV, hrn]
      simp only [Int.toNat_ofNat]
      by_cases hid : swap_at (identity_perm n) i j = identity_perm n
      · rw [if_pos hid]
        exact Tensor_permute.write_exit_noop op input _
          (by rw [hranks, hrn]; exact_mod_cast hn)
          (by rw [hranks, hrn, hV]; simpa using hid)
      · rw [if_neg hid]
        have := Tensor_permute.write_exit_written op input
          (swap_at (identity_perm R0) d0.toNat d1.toNat)
          (by rw [hranks, hrn]; exact_mod_cast hn)
          (by rw [hranks, hrn, hV]; simpa using hperm)
          (by rw [hranks, hrn, hV]; simpa using hid)
        rw [this, hranks, hrn, hV]
        simp only [Int.toNat_ofNat]
    · rw [hV, hrn]
      simp only [Int.toNat_ofNat]
      exact hiff

/-- Instance of C17: axes `(1, 3)` at rank 4 with batch axis 0 reduce to the
vector `[2, 1, 0]` in both passes. -/
theorem passes_agree_witness :
    Tensor_permute.drop_batch (swap_at (identity_perm 4) (1 : Int).toNat (3 : Int).toNat) 0 =
      [2, 1, 0] ∧
    torch_transpose.get_permute_type [2, 1, 0] 3 = 5 ∧
    (torch_transpose.swap_dims (identity_perm (torch_transpose.reduced_rank ⟨[2, 3, 4, 5], 0⟩).toNat)
        (torch_transpose.swap_position ⟨[2, 3, 4, 5], 0⟩ (1 : Int)) (torch_transpose.swap_position ⟨[2, 3, 4, 5], 0⟩ (3 : Int)) =
      some (Tensor_permute.drop_batch (swap_at (identity_perm 4) (1 : Int).toNat (3 : Int).toNat)
        (0 : Int)) ∧
    Tensor_permute.reduced_rank ⟨[2, 3, 4, 5], 0⟩ (swap_at (identity_perm 4) (1 : Int).toNat (3 : Int).toNat) =
      torch_transpose.reduced_rank ⟨[2, 3, 4, 5], 0⟩ ∧
    (5 < torch_transpose.reduced_rank ⟨[2, 3, 4, 5], 0⟩ →
      torch_transpose.write fresh_op ⟨[2, 3, 4, 5], 0⟩ (1 : Int) (3 : Int) =
        some ⟨{ fresh_op with params := fresh_op.params.assign "0" (Parameter.int 0) },
          Exit.unsupported_rank (torch_transpose.reduced_rank ⟨[2, 3, 4, 5], 0⟩)⟩ ∧
      Tensor_permute.write fresh_op ⟨[2, 3, 4, 5], 0⟩ (swap_at (identity_perm 4) (1 : Int).toNat (3 : Int).toNat) =
        ⟨fresh_op, Exit.unsupported_rank (torch_transpose.reduced_rank ⟨[2, 3, 4, 5], 0⟩)⟩) ∧
    (torch_transpose.reduced_rank ⟨[2, 3, 4, 5], 0⟩ ≤ 5 →
      torch_transpose.write fresh_op ⟨[2, 3, 4, 5], 0⟩ (1 : Int) (3 : Int) =
        torch_transpose.write_permute
          { fresh_op with params := fresh_op.params.assign "0" (Parameter.int 0) }
          (torch_transpose.swap_position ⟨[2, 3, 4, 5], 0⟩ (1 : Int)) (torch_transpose.swap_position ⟨[2, 3, 4, 5], 0⟩ (3 : Int))
          (torch_transpose.reduced_rank ⟨[2, 3, 4, 5], 0⟩) ∧
      torch_transpose.write fresh_op ⟨[2, 3, 4, 5], 0⟩ (1 : Int) (3 : Int) =
        some (if torch_transpose.get_permute_type
            (Tensor_permute.drop_batch (swap_at (identity_perm 4) (1 : Int).toNat (3 : Int).toNat)
              (0 : Int)) (torch_transpose.reduced_rank ⟨[2, 3, 4, 5], 0⟩) = 0 then
            ⟨{ type := "Noop", params := fresh_op.params.assign "0" (Parameter.int 0) }, Exit.noop⟩
          else
            ⟨{ type := fresh_op.type,
               params := ((fresh_op.params.assign "0" (Parameter.int 0)).assign "0"
                (Parameter.int (torch_transpose.get_permute_type
                  (Tensor_permute.drop_batch (swap_at (identity_perm 4) (1 : Int).toNat (3 : Int).toNat)
                    (0 : Int)) (torch_transpose.reduced_rank ⟨[2, 3, 4, 5], 0⟩)))) },
              Exit.written⟩) ∧
      Tensor_permute.write fresh_op ⟨[2, 3, 4, 5], 0⟩ (swap_at (identity_perm 4) (1 : Int).toNat (3 : Int).toNat) =
        (if Tensor_permute.drop_batch (swap_at (identity_perm 4) (1 : Int).toNat (3 : Int).toNat)
            (0 : Int) = identity_perm (torch_transpose.reduced_rank ⟨[2, 3, 4, 5], 0⟩).toNat then
          ⟨{ fresh_op with type := "Noop" }, Exit.noop⟩
        else
          ⟨{ fresh_op with params := (Tensor_permute.write_dims
              (fresh_op.params.assign "0" (Parameter.int (-1)))
              (Tensor_permute.drop_batch (swap_at (identity_perm 4) (1 : Int).toNat (3 : Int).toNat)
                (0 : Int)) (torch_transpose.reduced_rank ⟨[2, 3, 4, 5], 0⟩).toNat) },
            Exit.written⟩) ∧
      (torch_transpose.get_permute_type
          (Tensor_permute.drop_batch (swap_at (identity_perm 4) (1 : Int).toNat (3 : Int).toNat)
            (0 : Int)) (torch_transpose.reduced_rank ⟨[2, 3, 4, 5], 0⟩) = 0 ↔
        Tensor_permute.drop_batch (swap_at (identity_perm 4) (1 : Int).toNat (3 : Int).toNat)
          (0 : Int) = identity_perm (torch_transpose.reduced_rank ⟨[2, 3, 4, 5], 0⟩).toNat))) :=
  ⟨by decide, by decide,
    passes_agree fresh_op ⟨[2, 3, 4, 5], 0⟩ 1 3 4 (by decide) rfl (by decide) (by decide) (by decide)
      (by decide) (Or.inr (by decide))⟩

end agreement

end pnnx
